import Mathlib

/-!
Shallow embedding of the Oriel interpreter core (wojciech-graj/oriel):
the configuration (`src/cfg.rs`, `src/main.rs`), the IR (`src/ir.rs`),
the parser's program construction (`src/parse.rs`, `Program::from_src`),
and the virtual machine (`src/vm.rs`).

Machine integers (`u16`) are modelled as `Nat`; every theorem that needs
the 16-bit range states `< 65536` explicitly.  Rust `HashMap`s are
modelled as association lists whose `insert` overwrites the existing
binding of a key, so that the list length coincides with the map's
`len()` (the number of distinct keys).  The Rust `Vec<usize>` call stack
is modelled as a `List Nat` whose head is the top of the stack.
-/

namespace Oriel

/-! ## Configuration (`src/cfg.rs`, `src/main.rs`) -/

/-- `Standard` from `src/cfg.rs`.  The Rust enum carries
`#[derive(Default)]` with the `#[default]` attribute on `WIN3_0`. -/
inductive Standard where
  | WIN3_0
  | WIN3_1
  deriving DecidableEq, Repr

/-- The `#[default]` variant of `Standard` in `src/cfg.rs` is `WIN3_0`. -/
def Standard.default : Standard := Standard.WIN3_0

/-- `TryFrom<&str> for Standard` from `src/cfg.rs`. -/
def Standard.tryFrom (value : String) : Option Standard :=
  if value = "win3.0" then some Standard.WIN3_0
  else if value = "win3.1" then some Standard.WIN3_1
  else none

/-- `Config` from `src/cfg.rs`. -/
structure Config where
  pedantic : Bool
  standard : Standard
  deriving DecidableEq, Repr

/-- The `standard` field of the `Config` built in `main` (`src/main.rs`):
`matches.opt_str("std")` is `some s` when `--std s` was given and `none`
otherwise; in the latter case `cfg::Standard::default()` is used.
`none` as a result models the `panic!("Unrecognized standard ...")`. -/
def mainStandard (stdArg : Option String) : Option Standard :=
  match stdArg with
  | some s => Standard.tryFrom s
  | none => some Standard.default

/-! ## IR value types (`src/ir.rs`, with `Str` and `SetValue` as used by
`src/parse.rs` and `src/vm.rs`) -/

/-- `LogicalOperator` from `src/ir.rs`. -/
inductive LogicalOperator where
  | equal
  | less
  | greater
  | lequal
  | gequal
  | nequal
  deriving DecidableEq, Repr

/-- `MathOperator` from `src/ir.rs`. -/
inductive MathOperator where
  | add
  | subtract
  | multiply
  | divide
  deriving DecidableEq, Repr

/-- `MessageBoxType` from `src/ir.rs`. -/
inductive MessageBoxType where
  | ok
  | okCancel
  | yesNo
  | yesNoCancel
  deriving DecidableEq, Repr

/-- `MessageBoxIcon` from `src/ir.rs`. -/
inductive MessageBoxIcon where
  | information
  | exclamation
  | question
  | stop
  | noIcon
  deriving DecidableEq, Repr

/-- `SetWindowOption` from `src/ir.rs`. -/
inductive SetWindowOption where
  | maximize
  | minimize
  | restore
  deriving DecidableEq, Repr

/-- `BackgroundTransparency` from `src/ir.rs`. -/
inductive BackgroundTransparency where
  | Opaque
  | Transparent
  deriving DecidableEq, Repr

/-- `BrushType` from `src/ir.rs`. -/
inductive BrushType where
  | solid
  | diagonalUp
  | diagonalDown
  | diagonalCross
  | horizontal
  | vertical
  | cross
  | null
  deriving DecidableEq, Repr

/-- `Coordinates` from `src/ir.rs`. -/
inductive Coordinates where
  | pixel
  | metric
  deriving DecidableEq, Repr

/-- `WaitMode` from `src/ir.rs`. -/
inductive WaitMode where
  | null
  | focus
  deriving DecidableEq, Repr

/-- `PenType` from `src/ir.rs`. -/
inductive PenType where
  | solid
  | null
  | dash
  | dot
  | dashDot
  | dashDotDot
  deriving DecidableEq, Repr

/-- `FontWeight` from `src/ir.rs`. -/
inductive FontWeight where
  | bold
  | noBold
  deriving DecidableEq, Repr

/-- `FontSlant` from `src/ir.rs`. -/
inductive FontSlant where
  | italic
  | noItalic
  deriving DecidableEq, Repr

/-- `FontUnderline` from `src/ir.rs`. -/
inductive FontUnderline where
  | underline
  | noUnderline
  deriving DecidableEq, Repr

/-- `Identifier` from `src/ir.rs`: a symbolic name compared by textual
content. -/
abbrev Identifier := String

/-- `Integer` from `src/ir.rs`: a `u16` literal or an integer-variable
reference.  Literals produced by the parser are in `0..=65535` because
`parse::<u16>` rejects anything larger. -/
inductive Integer where
  | literal (val : Nat)
  | variable_ (ident : Identifier)
  deriving DecidableEq, Repr

/-- `Str`, the string operand: a string literal (stored without its
surrounding quotes, see `str_lit_parse` in `src/parse.rs`) or a
string-variable reference (`Rule::identifier_str`).  The constructors
are fixed by the `TryFrom<&Pair> for ir::Str` impl in `src/parse.rs`
and by `VM::get_str` in `src/vm.rs`; the `ir.rs` in the snapshot is an
earlier revision that predates this type. -/
inductive Str where
  | literal (val : String)
  | variable_ (ident : Identifier)
  deriving DecidableEq, Repr

/-- `VirtualKey` from `src/ir.rs`. -/
inductive VirtualKey where
  | backSpace
  | tab
  | numPad5NoLock
  | enter
  | shift
  | ctrl
  | alt
  | pause
  | capsLock
  | escape
  | space
  | pgUp
  | pgDn
  | end_
  | home
  | leftArrow
  | upArrow
  | rightArrow
  | downArrow
  | printScreen
  | insert
  | delete
  | alNum (c : Char)
  | numPad (c : Char)
  | f (n : Nat)
  | numLock
  | scrollLock
  | colonOrSemiColon
  | plusOrEqual
  | lessOrComma
  | underscoreOrHyphen
  | greaterOrPeriod
  | questionOrSlash
  | tildeOrBackwardsSingleQuote
  | leftCurlyOrLeftSquare
  | pipeOrBackslash
  | rightCurlyOrRightSquare
  | doubleQuoteOrSingleQuote
  deriving DecidableEq, Repr

/-- `TryFrom<u16> for VirtualKey` from `src/ir.rs` (lines 145-255),
literal case for literal case. -/
def VirtualKey.tryFrom (value : Nat) : Option VirtualKey :=
  match value with
  | 8 => some .backSpace
  | 9 => some .tab
  | 12 => some .numPad5NoLock
  | 13 => some .enter
  | 16 => some .shift
  | 17 => some .ctrl
  | 18 => some .alt
  | 19 => some .pause
  | 20 => some .capsLock
  | 27 => some .escape
  | 32 => some .space
  | 33 => some .pgUp
  | 34 => some .pgDn
  | 35 => some .end_
  | 36 => some .home
  | 37 => some .leftArrow
  | 38 => some .upArrow
  | 39 => some .rightArrow
  | 40 => some .downArrow
  | 44 => some .printScreen
  | 45 => some .insert
  | 46 => some .delete
  | 48 => some (.alNum '0')
  | 49 => some (.alNum '1')
  | 50 => some (.alNum '2')
  | 51 => some (.alNum '3')
  | 52 => some (.alNum '4')
  | 53 => some (.alNum '5')
  | 54 => some (.alNum '6')
  | 55 => some (.alNum '7')
  | 56 => some (.alNum '8')
  | 57 => some (.alNum '9')
  | 65 => some (.alNum 'A')
  | 66 => some (.alNum 'B')
  | 67 => some (.alNum 'C')
  | 68 => some (.alNum 'D')
  | 69 => some (.alNum 'E')
  | 70 => some (.alNum 'F')
  | 71 => some (.alNum 'G')
  | 72 => some (.alNum 'H')
  | 73 => some (.alNum 'I')
  | 74 => some (.alNum 'J')
  | 75 => some (.alNum 'K')
  | 76 => some (.alNum 'L')
  | 77 => some (.alNum 'M')
  | 78 => some (.alNum 'N')
  | 79 => some (.alNum 'O')
  | 80 => some (.alNum 'P')
  | 81 => some (.alNum 'Q')
  | 82 => some (.alNum 'R')
  | 83 => some (.alNum 'S')
  | 84 => some (.alNum 'T')
  | 85 => some (.alNum 'U')
  | 86 => some (.alNum 'V')
  | 87 => some (.alNum 'W')
  | 88 => some (.alNum 'X')
  | 89 => some (.alNum 'Y')
  | 90 => some (.alNum 'Z')
  | 96 => some (.numPad '0')
  | 97 => some (.numPad '1')
  | 98 => some (.numPad '2')
  | 99 => some (.numPad '3')
  | 100 => some (.numPad '4')
  | 101 => some (.numPad '5')
  | 102 => some (.numPad '6')
  | 103 => some (.numPad '7')
  | 104 => some (.numPad '8')
  | 105 => some (.numPad '9')
  | 106 => some (.numPad '*')
  | 107 => some (.numPad '+')
  | 109 => some (.numPad '-')
  | 110 => some (.numPad '.')
  | 111 => some (.numPad '/')
  | 112 => some (.f 1)
  | 113 => some (.f 2)
  | 114 => some (.f 3)
  | 115 => some (.f 4)
  | 116 => some (.f 5)
  | 117 => some (.f 6)
  | 118 => some (.f 7)
  | 119 => some (.f 8)
  | 120 => some (.f 9)
  | 121 => some (.f 10)
  | 122 => some (.f 11)
  | 123 => some (.f 12)
  | 124 => some (.f 13)
  | 125 => some (.f 14)
  | 126 => some (.f 15)
  | 127 => some (.f 16)
  | 144 => some .numLock
  | 145 => some .scrollLock
  | 186 => some .colonOrSemiColon
  | 187 => some .plusOrEqual
  | 188 => some .lessOrComma
  | 189 => some .underscoreOrHyphen
  | 190 => some .greaterOrPeriod
  | 191 => some .questionOrSlash
  | 192 => some .tildeOrBackwardsSingleQuote
  | 219 => some .leftCurlyOrLeftSquare
  | 220 => some .pipeOrBackslash
  | 221 => some .rightCurlyOrRightSquare
  | 222 => some .doubleQuoteOrSingleQuote
  | _ => none

/-- The exact set of key codes mapped by `TryFrom<u16> for VirtualKey`
in `src/ir.rs`: transcribed literal by literal from the match arms. -/
def vkCodes : List Nat :=
  [8, 9, 12, 13, 16, 17, 18, 19, 20, 27, 32, 33, 34, 35, 36, 37, 38, 39, 40,
   44, 45, 46,
   48, 49, 50, 51, 52, 53, 54, 55, 56, 57,
   65, 66, 67, 68, 69, 70, 71, 72, 73, 74, 75, 76, 77, 78, 79, 80, 81, 82,
   83, 84, 85, 86, 87, 88, 89, 90,
   96, 97, 98, 99, 100, 101, 102, 103, 104, 105, 106, 107, 109, 110, 111,
   112, 113, 114, 115, 116, 117, 118, 119, 120, 121, 122, 123, 124, 125,
   126, 127,
   144, 145,
   186, 187, 188, 189, 190, 191, 192, 219, 220, 221, 222]

/-- `PhysicalKey` from `src/ir.rs`: a printable character with an
optional Ctrl modifier. -/
structure PhysicalKey where
  chr : Char
  ctrl : Bool
  deriving DecidableEq, Repr

/-- Modelled from the spec: the `TryFrom<&str>` conversion used by the
`SetKeyboard` arm of `VM::step` to validate a physical-key string is
not in the snapshot (only its call site in `src/vm.rs` is).  Per §3 of
the spec the string (quotes already stripped by `str_lit_parse`) is one
printable, non-whitespace ASCII character, optionally preceded by `^`
for Ctrl; anything else is rejected (`InvalidPhysicalKey`). -/
def PhysicalKey.tryFrom (s : String) : Option PhysicalKey :=
  match s.toList with
  | [c] =>
    if 33 ≤ c.toNat ∧ c.toNat ≤ 126 then some ⟨c, false⟩ else none
  | ['^', c] =>
    if 33 ≤ c.toNat ∧ c.toNat ≤ 126 then some ⟨c, true⟩ else none
  | _ => none

/-- `Key` from `src/ir.rs` as used by `src/parse.rs` and `src/vm.rs`:
a virtual key is an unevaluated integer operand, a physical key an
unevaluated string operand. -/
inductive IrKey where
  | virtual_ (i : Integer)
  | physical (s : Str)
  deriving DecidableEq, Repr

/-- `MouseCallbacks` from `src/ir.rs`. -/
structure MouseCallbacks where
  label : Identifier
  x : Identifier
  y : Identifier
  deriving DecidableEq, Repr

/-- `MouseRegion` from `src/ir.rs`. -/
structure MouseRegion where
  x1 : Integer
  y1 : Integer
  x2 : Integer
  y2 : Integer
  callbacks : MouseCallbacks
  deriving DecidableEq, Repr

/-- `MenuItem` from `src/ir.rs` as used by `src/vm.rs` (the name is a
string operand resolved at execution; an absent label is the source
token `IGNORE`). -/
structure MenuItem where
  name : Str
  label : Option Identifier
  deriving DecidableEq, Repr

/-- `MenuMember` from `src/ir.rs`. -/
inductive MenuMember where
  | item (it : MenuItem)
  | separator
  deriving DecidableEq, Repr

/-- `MenuCategory` from `src/ir.rs`. -/
structure MenuCategory where
  item : MenuItem
  members : List MenuMember
  deriving DecidableEq, Repr

/-- `SetValue`, the right-hand side of a `Set` command: a single
operand or a checked binary expression.  Fixed by the `command_set` arm
of `Program::from_src` in `src/parse.rs` and the `Set` arm of
`VM::step` in `src/vm.rs`. -/
inductive SetValue where
  | value (i : Integer)
  | expression (i1 : Integer) (op : MathOperator) (i2 : Integer)
  deriving DecidableEq, Repr

/-- `Command` from `src/ir.rs` (with the `Set` payload and string
operands as used by `src/parse.rs` and `src/vm.rs`).  The `SetKeyboard`
`HashMap<Key, Identifier>` is modelled as an association list. -/
inductive Cmd where
  | beep
  | drawArc (x1 y1 x2 y2 x3 y3 x4 y4 : Integer)
  | drawBackground
  | drawBitmap (x y : Integer) (filename : Str)
  | drawChord (x1 y1 x2 y2 x3 y3 x4 y4 : Integer)
  | drawEllipse (x1 y1 x2 y2 : Integer)
  | drawFlood (x y r g b : Integer)
  | drawLine (x1 y1 x2 y2 : Integer)
  | drawNumber (x y n : Integer)
  | drawPie (x1 y1 x2 y2 x3 y3 x4 y4 : Integer)
  | drawRectangle (x1 y1 x2 y2 : Integer)
  | drawRoundRectangle (x1 y1 x2 y2 x3 y3 : Integer)
  | drawSizedBitmap (x1 y1 x2 y2 : Integer) (filename : Str)
  | drawText (x y : Integer) (text : Str)
  | end_
  | gosub (ident : Identifier)
  | return_
  | goto (ident : Identifier)
  | if_ (i1 : Integer) (op : LogicalOperator) (i2 : Integer) (gotoFalse : Nat)
  | messageBox (typ : MessageBoxType) (defaultButton : Integer)
      (icon : MessageBoxIcon) (text caption : Str) (buttonPushed : Identifier)
  | run (command : Str)
  | set (var : Identifier) (val : SetValue)
  | setKeyboard (params : List (IrKey × Identifier))
  | setMenu (menu : List MenuCategory)
  | setMouse (params : List MouseRegion)
  | setWaitMode (mode : WaitMode)
  | setWindow (option : SetWindowOption)
  | useBackground (option : BackgroundTransparency) (r g b : Integer)
  | useBrush (option : BrushType) (r g b : Integer)
  | useCaption (text : Str)
  | useCoordinates (coordinates : Coordinates)
  | useFont (name : Str) (width height : Integer) (bold : FontWeight)
      (italic : FontSlant) (underline : FontUnderline) (r g b : Integer)
  | usePen (option : PenType) (width : Integer) (r g b : Integer)
  | waitInput (milliseconds : Option Integer)
  deriving DecidableEq, Repr

/-- `Program` from `src/ir.rs`.  The `HashMap<Identifier, usize>` label
table is an association list with overwriting insert. -/
structure Program where
  commands : List Cmd
  labels : List (Identifier × Nat)
  deriving DecidableEq, Repr

/-! ## Association-list model of `HashMap` -/

/-- `HashMap::get`: the binding of `k`, if any. -/
def lookupA {α : Type} : List (Identifier × α) → Identifier → Option α
  | [], _ => none
  | (k', v) :: t, k => if k' = k then some v else lookupA t k

/-- `HashMap::insert`: overwrite the binding of `k` if present,
otherwise append.  Keeps keys distinct, so the list length is the
map's `len()`. -/
def insertA {α : Type} : List (Identifier × α) → Identifier → α → List (Identifier × α)
  | [], k, v => [(k, v)]
  | (k', v') :: t, k, v =>
    if k' = k then (k, v) :: t else (k', v') :: insertA t k v

theorem insertA_length_of_mem {α : Type} (l : List (Identifier × α)) (k : Identifier)
    (v : α) (h : (lookupA l k).isSome) : (insertA l k v).length = l.length := by
  induction l with
  | nil => simp [lookupA] at h
  | cons hd t ih =>
    obtain ⟨k', v'⟩ := hd
    by_cases hk : k' = k
    · simp [insertA, hk]
    · simp only [lookupA, if_neg hk] at h
      simp [insertA, if_neg hk, ih h]

theorem insertA_length_of_not_mem {α : Type} (l : List (Identifier × α)) (k : Identifier)
    (v : α) (h : lookupA l k = none) : (insertA l k v).length = l.length + 1 := by
  induction l with
  | nil => simp [insertA]
  | cons hd t ih =>
    obtain ⟨k', v'⟩ := hd
    by_cases hk : k' = k
    · simp [lookupA, hk] at h
    · simp only [lookupA, if_neg hk] at h
      simp [insertA, if_neg hk, ih h]

theorem lookupA_insertA_self {α : Type} (l : List (Identifier × α)) (k : Identifier)
    (v : α) : lookupA (insertA l k v) k = some v := by
  induction l with
  | nil => simp [insertA, lookupA]
  | cons hd t ih =>
    obtain ⟨k', v'⟩ := hd
    by_cases hk : k' = k
    · simp [insertA, hk, lookupA]
    · simp [insertA, if_neg hk, lookupA, if_neg hk, ih]

/-! ## Operator evaluation (`src/vm.rs`, lines 19-41) -/

/-- `LogicalOperator::cmp` from `src/vm.rs`: unsigned 16-bit comparison
(equal on `Nat` for in-range values). -/
def LogicalOperator.cmp : LogicalOperator → Nat → Nat → Bool
  | .equal, i1, i2 => decide (i1 = i2)
  | .less, i1, i2 => decide (i1 < i2)
  | .greater, i1, i2 => decide (i1 > i2)
  | .lequal, i1, i2 => decide (i1 ≤ i2)
  | .gequal, i1, i2 => decide (i1 ≥ i2)
  | .nequal, i1, i2 => decide (i1 ≠ i2)

/-- `MathOperator::eval` from `src/vm.rs`: `u16::checked_add/sub/mul/div`
on values below `2 ^ 16`.  `checked_add`/`checked_mul` return `None`
exactly when the exact result exceeds `65535`, `checked_sub` when it
would underflow, `checked_div` when the divisor is `0` (integer
division otherwise). -/
def MathOperator.eval : MathOperator → Nat → Nat → Option Nat
  | .add, i1, i2 => if i1 + i2 < 65536 then some (i1 + i2) else none
  | .subtract, i1, i2 => if i2 ≤ i1 then some (i1 - i2) else none
  | .multiply, i1, i2 => if i1 * i2 < 65536 then some (i1 * i2) else none
  | .divide, i1, i2 => if i2 = 0 then none else some (i1 / i2)

/-! ## VM-side resolved structures (`src/vm.rs`, lines 43-84) -/

/-- `vm::Key`: a keyboard key after operand resolution. -/
inductive VmKey where
  | virtual_ (vk : VirtualKey)
  | physical (pk : PhysicalKey)
  deriving DecidableEq, Repr

/-- `vm::MouseRegion`: a mouse region after operand resolution. -/
structure VmMouseRegion where
  x1 : Nat
  y1 : Nat
  x2 : Nat
  y2 : Nat
  callbacks : MouseCallbacks
  deriving DecidableEq, Repr

/-- `vm::MenuItem`: a menu item whose name has been resolved. -/
structure VmMenuItem where
  name : String
  label : Option Identifier
  deriving DecidableEq, Repr

/-- `vm::MenuMember`. -/
inductive VmMenuMember where
  | item (it : VmMenuItem)
  | separator
  deriving DecidableEq, Repr

/-- `vm::MenuCategory`. -/
structure VmMenuCategory where
  item : VmMenuItem
  members : List VmMenuMember
  deriving DecidableEq, Repr

/-- `vm::Input`: what `wait_input` can hand back to the VM. -/
inductive Input where
  | end_
  | goto (label : Identifier)
  | mouse (callbacks : MouseCallbacks) (x y : Nat)
  deriving DecidableEq, Repr

/-- `vm::Error` from `src/vm.rs` (lines 240-258).  `systemError` wraps a
Host-reported failure (`SystemError(Box<dyn Error>)`), carried here as a
message string. -/
inductive RtError where
  | callStackExhausted
  | mathOperation
  | invalidVirtualKey
  | invalidPhysicalKey
  | nonexistentLabel
  | excessVariables
  | excessVariablesStr
  | systemError (msg : String)
  deriving DecidableEq, Repr

/-- One invocation of a `VMSys` host method, with the concrete argument
values the VM passed (`src/vm.rs`, trait `VMSys`). -/
inductive HostCall where
  | beep
  | drawArc (x1 y1 x2 y2 x3 y3 x4 y4 : Nat)
  | drawBackground
  | drawBitmap (x y : Nat) (filename : String)
  | drawChord (x1 y1 x2 y2 x3 y3 x4 y4 : Nat)
  | drawEllipse (x1 y1 x2 y2 : Nat)
  | drawFlood (x y r g b : Nat)
  | drawLine (x1 y1 x2 y2 : Nat)
  | drawNumber (x y n : Nat)
  | drawPie (x1 y1 x2 y2 x3 y3 x4 y4 : Nat)
  | drawRectangle (x1 y1 x2 y2 : Nat)
  | drawRoundRectangle (x1 y1 x2 y2 x3 y3 : Nat)
  | drawSizedBitmap (x1 y1 x2 y2 : Nat) (filename : String)
  | drawText (x y : Nat) (text : String)
  | messageBox (typ : MessageBoxType) (defaultButton : Nat)
      (icon : MessageBoxIcon) (text caption : String)
  | run (command : String)
  | setKeyboard (params : List (VmKey × Identifier))
  | setMenu (menu : List VmMenuCategory)
  | setMouse (regions : List VmMouseRegion)
  | setWaitMode (mode : WaitMode)
  | setWindow (option : SetWindowOption)
  | useBackground (option : BackgroundTransparency) (r g b : Nat)
  | useBrush (option : BrushType) (r g b : Nat)
  | useCaption (text : String)
  | useCoordinates (coordinates : Coordinates)
  | useFont (name : String) (width height : Nat) (bold : FontWeight)
      (italic : FontSlant) (underline : FontUnderline) (r g b : Nat)
  | usePen (option : PenType) (width : Nat) (r g b : Nat)
  | waitInput (milliseconds : Option Nat)
  deriving DecidableEq, Repr

/-- The Host (`trait VMSys` in `src/vm.rs`), the abstract collaborator
the VM dispatches to.  Each operation may fail (`Box<dyn Error>`,
carried as a message string); `message_box` returns the chosen button
(`u16`) and `wait_input` returns an optional `Input`.  Modelled as a
stateless record of response functions; the VM records the calls it
makes in its own output trace. -/
structure Host where
  beep : Except String Unit
  drawArc : Nat → Nat → Nat → Nat → Nat → Nat → Nat → Nat → Except String Unit
  drawBackground : Except String Unit
  drawBitmap : Nat → Nat → String → Except String Unit
  drawChord : Nat → Nat → Nat → Nat → Nat → Nat → Nat → Nat → Except String Unit
  drawEllipse : Nat → Nat → Nat → Nat → Except String Unit
  drawFlood : Nat → Nat → Nat → Nat → Nat → Except String Unit
  drawLine : Nat → Nat → Nat → Nat → Except String Unit
  drawNumber : Nat → Nat → Nat → Except String Unit
  drawPie : Nat → Nat → Nat → Nat → Nat → Nat → Nat → Nat → Except String Unit
  drawRectangle : Nat → Nat → Nat → Nat → Except String Unit
  drawRoundRectangle : Nat → Nat → Nat → Nat → Nat → Nat → Except String Unit
  drawSizedBitmap : Nat → Nat → Nat → Nat → String → Except String Unit
  drawText : Nat → Nat → String → Except String Unit
  messageBox : MessageBoxType → Nat → MessageBoxIcon → String → String →
      Except String Nat
  run : String → Except String Unit
  setKeyboard : List (VmKey × Identifier) → Except String Unit
  setMenu : List VmMenuCategory → Except String Unit
  setMouse : List VmMouseRegion → Except String Unit
  setWaitMode : WaitMode → Except String Unit
  setWindow : SetWindowOption → Except String Unit
  useBackground : BackgroundTransparency → Nat → Nat → Nat → Except String Unit
  useBrush : BrushType → Nat → Nat → Nat → Except String Unit
  useCaption : String → Except String Unit
  useCoordinates : Coordinates → Except String Unit
  useFont : String → Nat → Nat → FontWeight → FontSlant → FontUnderline →
      Nat → Nat → Nat → Except String Unit
  usePen : PenType → Nat → Nat → Nat → Nat → Except String Unit
  waitInput : Option Nat → Except String (Option Input)

/-- A Host stub on which every operation succeeds: drawing succeeds,
`message_box` answers with the default button, `wait_input` reports no
input. -/
def hostStub : Host where
  beep := .ok ()
  drawArc := fun _ _ _ _ _ _ _ _ => .ok ()
  drawBackground := .ok ()
  drawBitmap := fun _ _ _ => .ok ()
  drawChord := fun _ _ _ _ _ _ _ _ => .ok ()
  drawEllipse := fun _ _ _ _ => .ok ()
  drawFlood := fun _ _ _ _ _ => .ok ()
  drawLine := fun _ _ _ _ => .ok ()
  drawNumber := fun _ _ _ => .ok ()
  drawPie := fun _ _ _ _ _ _ _ _ => .ok ()
  drawRectangle := fun _ _ _ _ => .ok ()
  drawRoundRectangle := fun _ _ _ _ _ _ => .ok ()
  drawSizedBitmap := fun _ _ _ _ _ => .ok ()
  drawText := fun _ _ _ => .ok ()
  messageBox := fun _ db _ _ _ => .ok db
  run := fun _ => .ok ()
  setKeyboard := fun _ => .ok ()
  setMenu := fun _ => .ok ()
  setMouse := fun _ => .ok ()
  setWaitMode := fun _ => .ok ()
  setWindow := fun _ => .ok ()
  useBackground := fun _ _ _ _ => .ok ()
  useBrush := fun _ _ _ _ => .ok ()
  useCaption := fun _ => .ok ()
  useCoordinates := fun _ => .ok ()
  useFont := fun _ _ _ _ _ _ _ _ _ => .ok ()
  usePen := fun _ _ _ _ _ => .ok ()
  waitInput := fun _ => .ok none

/-! ## VM state and operand evaluation (`src/vm.rs`, lines 279-359) -/

/-- The integer-variable store (`vars: HashMap<Identifier, u16>`). -/
abbrev VarsI := List (Identifier × Nat)

/-- The string-variable store (`vars_str: HashMap<Identifier, &str>`). -/
abbrev VarsS := List (Identifier × String)

/-- The mutable state of `struct VM` (`src/vm.rs`): instruction pointer,
the two variable stores, and the call stack (top = head). -/
structure VMState where
  ip : Nat
  vars : VarsI
  varsStr : VarsS
  callStack : List Nat
  deriving DecidableEq, Repr

/-- `VM::set_variable` (`src/vm.rs`, lines 334-341): in pedantic mode,
refuse whenever the store already holds at least 500 bindings — checked
before the insert, with no regard to whether `ident` is already bound. -/
def setVariable (cfg : Config) (vars : VarsI) (ident : Identifier) (val : Nat) :
    Except RtError VarsI :=
  if cfg.pedantic ∧ vars.length ≥ 500 then
    .error .excessVariables
  else
    .ok (insertA vars ident val)

/-- `VM::set_variable_str` (`src/vm.rs`, lines 343-350): the string
store caps at 200 in pedantic mode. -/
def setVariableStr (cfg : Config) (vars : VarsS) (ident : Identifier)
    (val : String) : Except RtError VarsS :=
  if cfg.pedantic ∧ vars.length ≥ 200 then
    .error .excessVariablesStr
  else
    .ok (insertA vars ident val)

/-- `VM::get_integer` (`src/vm.rs`, lines 306-318): a literal is its
value; a variable is its binding, or — when unbound — it is defined to
`0` through `set_variable` (subject to the pedantic cap) and `0` is
returned. -/
def getInteger (cfg : Config) (vars : VarsI) : Integer →
    Except RtError (Nat × VarsI)
  | .literal val => .ok (val, vars)
  | .variable_ ident =>
    match lookupA vars ident with
    | some val => .ok (val, vars)
    | none => do
      let vars' ← setVariable cfg vars ident 0
      pure (0, vars')

/-- `VM::get_str` (`src/vm.rs`, lines 320-332): the string analogue,
defaulting an unbound variable to `""`. -/
def getStr (cfg : Config) (vars : VarsS) : Str →
    Except RtError (String × VarsS)
  | .literal val => .ok (val, vars)
  | .variable_ ident =>
    match lookupA vars ident with
    | some val => .ok (val, vars)
    | none => do
      let vars' ← setVariableStr cfg vars ident ""
      pure ("", vars')

/-- `VM::goto_label` (`src/vm.rs`, lines 352-359), returning the target
command index (`NonexistentLabel` when the label is unknown); callers
store it into `ip`. -/
def gotoLabel (p : Program) (label : Identifier) : Except RtError Nat :=
  match lookupA p.labels label with
  | some tgt => .ok tgt
  | none => .error .nonexistentLabel

/-! ## Resolution of `SetKeyboard` / `SetMenu` / `SetMouse` payloads
(`src/vm.rs`, `VM::step`) -/

/-- The per-entry key resolution of the `SetKeyboard` arm of `VM::step`
(lines 509-531): a virtual key evaluates its integer operand and
converts it through `VirtualKey::try_from` (failure ⇒
`InvalidVirtualKey`); a physical key evaluates its string operand and
validates it (failure ⇒ `InvalidPhysicalKey`). -/
def resolveKeys (cfg : Config) : List (IrKey × Identifier) → VarsI → VarsS →
    Except RtError (List (VmKey × Identifier) × VarsI × VarsS)
  | [], vi, vs => .ok ([], vi, vs)
  | (key, label) :: t, vi, vs =>
    match key with
    | .virtual_ i => do
      let (v, vi') ← getInteger cfg vi i
      match VirtualKey.tryFrom v with
      | some vk => do
        let (rest, vi2, vs2) ← resolveKeys cfg t vi' vs
        pure ((VmKey.virtual_ vk, label) :: rest, vi2, vs2)
      | none => .error .invalidVirtualKey
    | .physical ps => do
      let (str, vs') ← getStr cfg vs ps
      match PhysicalKey.tryFrom str with
      | some pk => do
        let (rest, vi2, vs2) ← resolveKeys cfg t vi vs'
        pure ((VmKey.physical pk, label) :: rest, vi2, vs2)
      | none => .error .invalidPhysicalKey

/-- The member resolution of the `SetMenu` arm of `VM::step`. -/
def resolveMenuMembers (cfg : Config) : List MenuMember → VarsS →
    Except RtError (List VmMenuMember × VarsS)
  | [], vs => .ok ([], vs)
  | .separator :: t, vs => do
    let (rest, vs') ← resolveMenuMembers cfg t vs
    pure (VmMenuMember.separator :: rest, vs')
  | .item it :: t, vs => do
    let (name, vs') ← getStr cfg vs it.name
    let (rest, vs2) ← resolveMenuMembers cfg t vs'
    pure (VmMenuMember.item ⟨name, it.label⟩ :: rest, vs2)

/-- The category resolution of the `SetMenu` arm of `VM::step`. -/
def resolveMenu (cfg : Config) : List MenuCategory → VarsS →
    Except RtError (List VmMenuCategory × VarsS)
  | [], vs => .ok ([], vs)
  | cat :: t, vs => do
    let (name, vs') ← getStr cfg vs cat.item.name
    let (members, vs2) ← resolveMenuMembers cfg cat.members vs'
    let (rest, vs3) ← resolveMenu cfg t vs2
    pure (VmMenuCategory.mk ⟨name, cat.item.label⟩ members :: rest, vs3)

/-- The region resolution of the `SetMouse` arm of `VM::step`. -/
def resolveMouse (cfg : Config) : List MouseRegion → VarsI →
    Except RtError (List VmMouseRegion × VarsI)
  | [], vi => .ok ([], vi)
  | reg :: t, vi => do
    let (a1, vi1) ← getInteger cfg vi reg.x1
    let (a2, vi2) ← getInteger cfg vi1 reg.y1
    let (a3, vi3) ← getInteger cfg vi2 reg.x2
    let (a4, vi4) ← getInteger cfg vi3 reg.y2
    let (rest, vi5) ← resolveMouse cfg t vi4
    pure (VmMouseRegion.mk a1 a2 a3 a4 reg.callbacks :: rest, vi5)

/-! ## `VM::step` (`src/vm.rs`, lines 361-639) -/

/-- The outcome of one `VM::step`: continue (`Ok(true)`), stop
(`Ok(false)`), a `RuntimeError`, or a Rust panic (indexing
`commands[ip]` out of bounds — unreachable for parser-produced
programs). -/
inductive StepRes where
  | cont (s : VMState)
  | stop (s : VMState)
  | err (e : RtError)
  | crash
  deriving DecidableEq, Repr

/-- Finish a step that ends in a single host call followed by `ip += 1`
(the `incr_ip!` macro of `src/vm.rs`). -/
def hostUnitStep (s : VMState) (call : HostCall) (res : Except String Unit) :
    List HostCall × StepRes :=
  ([call],
   match res with
   | .ok _ => .cont { s with ip := s.ip + 1 }
   | .error e => .err (.systemError e))

/-- The dispatch on the current command inside `VM::step` (`src/vm.rs`,
lines 361-639).  Returns the host calls made during the step (in
order) together with the outcome.  Operand evaluation order follows
the `get_integers!` / `get_strings!` macro expansions of the source. -/
def stepCmd (p : Program) (cfg : Config) (host : Host) (s : VMState)
    (cmd : Cmd) : List HostCall × StepRes :=
  match cmd with
    | .beep => hostUnitStep s .beep host.beep
    | .drawArc x1 y1 x2 y2 x3 y3 x4 y4 =>
      match (do
        let (a1, vi) ← getInteger cfg s.vars x1
        let (a2, vi) ← getInteger cfg vi y1
        let (a3, vi) ← getInteger cfg vi x2
        let (a4, vi) ← getInteger cfg vi y2
        let (a5, vi) ← getInteger cfg vi x3
        let (a6, vi) ← getInteger cfg vi y3
        let (a7, vi) ← getInteger cfg vi x4
        let (a8, vi) ← getInteger cfg vi y4
        pure (a1, a2, a3, a4, a5, a6, a7, a8, vi) :
          Except RtError (Nat × Nat × Nat × Nat × Nat × Nat × Nat × Nat × VarsI)) with
      | .error e => ([], .err e)
      | .ok (a1, a2, a3, a4, a5, a6, a7, a8, vi) =>
        hostUnitStep { s with vars := vi } (.drawArc a1 a2 a3 a4 a5 a6 a7 a8)
          (host.drawArc a1 a2 a3 a4 a5 a6 a7 a8)
    | .drawBackground => hostUnitStep s .drawBackground host.drawBackground
    | .drawBitmap x y filename =>
      match (do
        let (a1, vi) ← getInteger cfg s.vars x
        let (a2, vi) ← getInteger cfg vi y
        pure (a1, a2, vi) : Except RtError (Nat × Nat × VarsI)) with
      | .error e => ([], .err e)
      | .ok (a1, a2, vi) =>
        match getStr cfg s.varsStr filename with
        | .error e => ([], .err e)
        | .ok (fname, vs) =>
          hostUnitStep { s with vars := vi, varsStr := vs }
            (.drawBitmap a1 a2 fname) (host.drawBitmap a1 a2 fname)
    | .drawChord x1 y1 x2 y2 x3 y3 x4 y4 =>
      match (do
        let (a1, vi) ← getInteger cfg s.vars x1
        let (a2, vi) ← getInteger cfg vi y1
        let (a3, vi) ← getInteger cfg vi x2
        let (a4, vi) ← getInteger cfg vi y2
        let (a5, vi) ← getInteger cfg vi x3
        let (a6, vi) ← getInteger cfg vi y3
        let (a7, vi) ← getInteger cfg vi x4
        let (a8, vi) ← getInteger cfg vi y4
        pure (a1, a2, a3, a4, a5, a6, a7, a8, vi) :
          Except RtError (Nat × Nat × Nat × Nat × Nat × Nat × Nat × Nat × VarsI)) with
      | .error e => ([], .err e)
      | .ok (a1, a2, a3, a4, a5, a6, a7, a8, vi) =>
        hostUnitStep { s with vars := vi } (.drawChord a1 a2 a3 a4 a5 a6 a7 a8)
          (host.drawChord a1 a2 a3 a4 a5 a6 a7 a8)
    | .drawEllipse x1 y1 x2 y2 =>
      match (do
        let (a1, vi) ← getInteger cfg s.vars x1
        let (a2, vi) ← getInteger cfg vi y1
        let (a3, vi) ← getInteger cfg vi x2
        let (a4, vi) ← getInteger cfg vi y2
        pure (a1, a2, a3, a4, vi) :
          Except RtError (Nat × Nat × Nat × Nat × VarsI)) with
      | .error e => ([], .err e)
      | .ok (a1, a2, a3, a4, vi) =>
        hostUnitStep { s with vars := vi } (.drawEllipse a1 a2 a3 a4)
          (host.drawEllipse a1 a2 a3 a4)
    | .drawFlood x y r g b =>
      match (do
        let (a1, vi) ← getInteger cfg s.vars x
        let (a2, vi) ← getInteger cfg vi y
        let (a3, vi) ← getInteger cfg vi r
        let (a4, vi) ← getInteger cfg vi g
        let (a5, vi) ← getInteger cfg vi b
        pure (a1, a2, a3, a4, a5, vi) :
          Except RtError (Nat × Nat × Nat × Nat × Nat × VarsI)) with
      | .error e => ([], .err e)
      | .ok (a1, a2, a3, a4, a5, vi) =>
        hostUnitStep { s with vars := vi } (.drawFlood a1 a2 a3 a4 a5)
          (host.drawFlood a1 a2 a3 a4 a5)
    | .drawLine x1 y1 x2 y2 =>
      match (do
        let (a1, vi) ← getInteger cfg s.vars x1
        let (a2, vi) ← getInteger cfg vi y1
        let (a3, vi) ← getInteger cfg vi x2
        let (a4, vi) ← getInteger cfg vi y2
        pure (a1, a2, a3, a4, vi) :
          Except RtError (Nat × Nat × Nat × Nat × VarsI)) with
      | .error e => ([], .err e)
      | .ok (a1, a2, a3, a4, vi) =>
        hostUnitStep { s with vars := vi } (.drawLine a1 a2 a3 a4)
          (host.drawLine a1 a2 a3 a4)
    | .drawNumber x y n =>
      match (do
        let (a1, vi) ← getInteger cfg s.vars x
        let (a2, vi) ← getInteger cfg vi y
        let (a3, vi) ← getInteger cfg vi n
        pure (a1, a2, a3, vi) : Except RtError (Nat × Nat × Nat × VarsI)) with
      | .error e => ([], .err e)
      | .ok (a1, a2, a3, vi) =>
        hostUnitStep { s with vars := vi } (.drawNumber a1 a2 a3)
          (host.drawNumber a1 a2 a3)
    | .drawPie x1 y1 x2 y2 x3 y3 x4 y4 =>
      match (do
        let (a1, vi) ← getInteger cfg s.vars x1
        let (a2, vi) ← getInteger cfg vi y1
        let (a3, vi) ← getInteger cfg vi x2
        let (a4, vi) ← getInteger cfg vi y2
        let (a5, vi) ← getInteger cfg vi x3
        let (a6, vi) ← getInteger cfg vi y3
        let (a7, vi) ← getInteger cfg vi x4
        let (a8, vi) ← getInteger cfg vi y4
        pure (a1, a2, a3, a4, a5, a6, a7, a8, vi) :
          Except RtError (Nat × Nat × Nat × Nat × Nat × Nat × Nat × Nat × VarsI)) with
      | .error e => ([], .err e)
      | .ok (a1, a2, a3, a4, a5, a6, a7, a8, vi) =>
        hostUnitStep { s with vars := vi } (.drawPie a1 a2 a3 a4 a5 a6 a7 a8)
          (host.drawPie a1 a2 a3 a4 a5 a6 a7 a8)
    | .drawRectangle x1 y1 x2 y2 =>
      match (do
        let (a1, vi) ← getInteger cfg s.vars x1
        let (a2, vi) ← getInteger cfg vi y1
        let (a3, vi) ← getInteger cfg vi x2
        let (a4, vi) ← getInteger cfg vi y2
        pure (a1, a2, a3, a4, vi) :
          Except RtError (Nat × Nat × Nat × Nat × VarsI)) with
      | .error e => ([], .err e)
      | .ok (a1, a2, a3, a4, vi) =>
        hostUnitStep { s with vars := vi } (.drawRectangle a1 a2 a3 a4)
          (host.drawRectangle a1 a2 a3 a4)
    | .drawRoundRectangle x1 y1 x2 y2 x3 y3 =>
      match (do
        let (a1, vi) ← getInteger cfg s.vars x1
        let (a2, vi) ← getInteger cfg vi y1
        let (a3, vi) ← getInteger cfg vi x2
        let (a4, vi) ← getInteger cfg vi y2
        let (a5, vi) ← getInteger cfg vi x3
        let (a6, vi) ← getInteger cfg vi y3
        pure (a1, a2, a3, a4, a5, a6, vi) :
          Except RtError (Nat × Nat × Nat × Nat × Nat × Nat × VarsI)) with
      | .error e => ([], .err e)
      | .ok (a1, a2, a3, a4, a5, a6, vi) =>
        hostUnitStep { s with vars := vi } (.drawRoundRectangle a1 a2 a3 a4 a5 a6)
          (host.drawRoundRectangle a1 a2 a3 a4 a5 a6)
    | .drawSizedBitmap x1 y1 x2 y2 filename =>
      match (do
        let (a1, vi) ← getInteger cfg s.vars x1
        let (a2, vi) ← getInteger cfg vi y1
        let (a3, vi) ← getInteger cfg vi x2
        let (a4, vi) ← getInteger cfg vi y2
        pure (a1, a2, a3, a4, vi) :
          Except RtError (Nat × Nat × Nat × Nat × VarsI)) with
      | .error e => ([], .err e)
      | .ok (a1, a2, a3, a4, vi) =>
        match getStr cfg s.varsStr filename with
        | .error e => ([], .err e)
        | .ok (fname, vs) =>
          hostUnitStep { s with vars := vi, varsStr := vs }
            (.drawSizedBitmap a1 a2 a3 a4 fname)
            (host.drawSizedBitmap a1 a2 a3 a4 fname)
    | .drawText x y text =>
      match (do
        let (a1, vi) ← getInteger cfg s.vars x
        let (a2, vi) ← getInteger cfg vi y
        pure (a1, a2, vi) : Except RtError (Nat × Nat × VarsI)) with
      | .error e => ([], .err e)
      | .ok (a1, a2, vi) =>
        match getStr cfg s.varsStr text with
        | .error e => ([], .err e)
        | .ok (txt, vs) =>
          hostUnitStep { s with vars := vi, varsStr := vs }
            (.drawText a1 a2 txt) (host.drawText a1 a2 txt)
    | .end_ => ([], .stop s)
    | .gosub ident =>
      match gotoLabel p ident with
      | .ok tgt =>
        ([], .cont { s with ip := tgt, callStack := (s.ip + 1) :: s.callStack })
      | .error e => ([], .err e)
    | .return_ =>
      match s.callStack with
      | [] => ([], .err .callStackExhausted)
      | top :: rest => ([], .cont { s with ip := top, callStack := rest })
    | .goto ident =>
      match gotoLabel p ident with
      | .ok tgt => ([], .cont { s with ip := tgt })
      | .error e => ([], .err e)
    | .if_ i1 op i2 gotoFalse =>
      match (do
        let (v1, vi) ← getInteger cfg s.vars i1
        let (v2, vi) ← getInteger cfg vi i2
        pure (v1, v2, vi) : Except RtError (Nat × Nat × VarsI)) with
      | .error e => ([], .err e)
      | .ok (v1, v2, vi) =>
        ([], .cont { s with vars := vi,
                            ip := if op.cmp v1 v2 then s.ip + 1 else gotoFalse })
    | .messageBox typ defaultButton icon text caption buttonPushed =>
      match (do
        let (db, vi) ← getInteger cfg s.vars defaultButton
        let (tx, vs) ← getStr cfg s.varsStr text
        let (cp, vs2) ← getStr cfg vs caption
        pure (db, tx, cp, vi, vs2) :
          Except RtError (Nat × String × String × VarsI × VarsS)) with
      | .error e => ([], .err e)
      | .ok (db, tx, cp, vi, vs2) =>
        match host.messageBox typ db icon tx cp with
        | .error e => ([.messageBox typ db icon tx cp], .err (.systemError e))
        | .ok btn =>
          match setVariable cfg vi buttonPushed btn with
          | .error e => ([.messageBox typ db icon tx cp], .err e)
          | .ok vi' =>
            ([.messageBox typ db icon tx cp],
             .cont { s with vars := vi', varsStr := vs2, ip := s.ip + 1 })
    | .run command =>
      match getStr cfg s.varsStr command with
      | .error e => ([], .err e)
      | .ok (cmdStr, vs) =>
        hostUnitStep { s with varsStr := vs } (.run cmdStr) (host.run cmdStr)
    | .set var val =>
      match (match val with
        | .value i => getInteger cfg s.vars i
        | .expression i1 op i2 => do
          let (v1, vi) ← getInteger cfg s.vars i1
          let (v2, vi2) ← getInteger cfg vi i2
          match op.eval v1 v2 with
          | some res => pure (res, vi2)
          | none => .error .mathOperation) with
      | .error e => ([], .err e)
      | .ok (v, vi) =>
        match setVariable cfg vi var v with
        | .error e => ([], .err e)
        | .ok vi' => ([], .cont { s with vars := vi', ip := s.ip + 1 })
    | .setKeyboard params =>
      match resolveKeys cfg params s.vars s.varsStr with
      | .error e => ([], .err e)
      | .ok (resolved, vi, vs) =>
        hostUnitStep { s with vars := vi, varsStr := vs }
          (.setKeyboard resolved) (host.setKeyboard resolved)
    | .setMenu menu =>
      match resolveMenu cfg menu s.varsStr with
      | .error e => ([], .err e)
      | .ok (resolved, vs) =>
        hostUnitStep { s with varsStr := vs } (.setMenu resolved)
          (host.setMenu resolved)
    | .setMouse params =>
      match resolveMouse cfg params s.vars with
      | .error e => ([], .err e)
      | .ok (resolved, vi) =>
        hostUnitStep { s with vars := vi } (.setMouse resolved)
          (host.setMouse resolved)
    | .setWaitMode mode => hostUnitStep s (.setWaitMode mode) (host.setWaitMode mode)
    | .setWindow option => hostUnitStep s (.setWindow option) (host.setWindow option)
    | .useBackground option r g b =>
      match (do
        let (a1, vi) ← getInteger cfg s.vars r
        let (a2, vi) ← getInteger cfg vi g
        let (a3, vi) ← getInteger cfg vi b
        pure (a1, a2, a3, vi) : Except RtError (Nat × Nat × Nat × VarsI)) with
      | .error e => ([], .err e)
      | .ok (a1, a2, a3, vi) =>
        hostUnitStep { s with vars := vi } (.useBackground option a1 a2 a3)
          (host.useBackground option a1 a2 a3)
    | .useBrush option r g b =>
      match (do
        let (a1, vi) ← getInteger cfg s.vars r
        let (a2, vi) ← getInteger cfg vi g
        let (a3, vi) ← getInteger cfg vi b
        pure (a1, a2, a3, vi) : Except RtError (Nat × Nat × Nat × VarsI)) with
      | .error e => ([], .err e)
      | .ok (a1, a2, a3, vi) =>
        hostUnitStep { s with vars := vi } (.useBrush option a1 a2 a3)
          (host.useBrush option a1 a2 a3)
    | .useCaption text =>
      match getStr cfg s.varsStr text with
      | .error e => ([], .err e)
      | .ok (txt, vs) =>
        hostUnitStep { s with varsStr := vs } (.useCaption txt)
          (host.useCaption txt)
    | .useCoordinates coordinates =>
      hostUnitStep s (.useCoordinates coordinates)
        (host.useCoordinates coordinates)
    | .useFont name width height bold italic underline r g b =>
      match (do
        let (a1, vi) ← getInteger cfg s.vars width
        let (a2, vi) ← getInteger cfg vi height
        let (a3, vi) ← getInteger cfg vi r
        let (a4, vi) ← getInteger cfg vi g
        let (a5, vi) ← getInteger cfg vi b
        pure (a1, a2, a3, a4, a5, vi) :
          Except RtError (Nat × Nat × Nat × Nat × Nat × VarsI)) with
      | .error e => ([], .err e)
      | .ok (a1, a2, a3, a4, a5, vi) =>
        match getStr cfg s.varsStr name with
        | .error e => ([], .err e)
        | .ok (nm, vs) =>
          hostUnitStep { s with vars := vi, varsStr := vs }
            (.useFont nm a1 a2 bold italic underline a3 a4 a5)
            (host.useFont nm a1 a2 bold italic underline a3 a4 a5)
    | .usePen option width r g b =>
      match (do
        let (a1, vi) ← getInteger cfg s.vars width
        let (a2, vi) ← getInteger cfg vi r
        let (a3, vi) ← getInteger cfg vi g
        let (a4, vi) ← getInteger cfg vi b
        pure (a1, a2, a3, a4, vi) :
          Except RtError (Nat × Nat × Nat × Nat × VarsI)) with
      | .error e => ([], .err e)
      | .ok (a1, a2, a3, a4, vi) =>
        hostUnitStep { s with vars := vi } (.usePen option a1 a2 a3 a4)
          (host.usePen option a1 a2 a3 a4)
    | .waitInput milliseconds =>
      match (match milliseconds with
        | some i => (getInteger cfg s.vars i).map (fun r => (some r.1, r.2))
        | none => .ok (none, s.vars) :
          Except RtError (Option Nat × VarsI)) with
      | .error e => ([], .err e)
      | .ok (msv, vi) =>
        let s1 := { s with vars := vi }
        match host.waitInput msv with
        | .error e => ([.waitInput msv], .err (.systemError e))
        | .ok none => ([.waitInput msv], .cont { s1 with ip := s1.ip + 1 })
        | .ok (some .end_) => ([.waitInput msv], .stop s1)
        | .ok (some (.goto label)) =>
          match gotoLabel p label with
          | .ok tgt => ([.waitInput msv], .cont { s1 with ip := tgt })
          | .error e => ([.waitInput msv], .err e)
        | .ok (some (.mouse cb x y)) =>
          match (do
            let vi1 ← setVariable cfg s1.vars cb.x x
            let vi2 ← setVariable cfg vi1 cb.y y
            pure vi2 : Except RtError VarsI) with
          | .error e => ([.waitInput msv], .err e)
          | .ok vi2 =>
            match gotoLabel p cb.label with
            | .ok tgt => ([.waitInput msv], .cont { s1 with vars := vi2, ip := tgt })
            | .error e => ([.waitInput msv], .err e)

/-- `VM::step` (`src/vm.rs`, lines 361-639): fetch
`self.program.commands[self.ip]` (a Rust panic — `crash` — when out of
bounds) and dispatch on it. -/
def step (p : Program) (cfg : Config) (host : Host) (s : VMState) :
    List HostCall × StepRes :=
  match p.commands[s.ip]? with
  | none => ([], .crash)
  | some cmd => stepCmd p cfg host s cmd

theorem step_some (cfg : Config) (host : Host) {p : Program} {s : VMState}
    {cmd : Cmd} (h : p.commands[s.ip]? = some cmd) :
    step p cfg host s = stepCmd p cfg host s cmd := by
  simp [step, h]

/-- The outcome of `VM::run` under a fuel bound. -/
inductive RunResult where
  | finished (s : VMState)
  | fuelOut (s : VMState)
  | failed (e : RtError)
  | crashed
  deriving DecidableEq, Repr

/-- `VM::run` (`src/vm.rs`, lines 641-650): step until a step reports
stop (`Ok(false)`) or an error, accumulating the host-call trace.
`fuelOut` marks executions longer than the given fuel. -/
def runFuel (p : Program) (cfg : Config) (host : Host) :
    Nat → VMState → List HostCall × RunResult
  | 0, s => ([], .fuelOut s)
  | fuel + 1, s =>
    match step p cfg host s with
    | (calls, .cont s') =>
      let (calls', res) := runFuel p cfg host fuel s'
      (calls ++ calls', res)
    | (calls, .stop s') => (calls, .finished s')
    | (calls, .err e) => (calls, .failed e)
    | (calls, .crash) => (calls, .crashed)

/-- The initial VM state built by `VM::new` (`src/vm.rs`). -/
def initState : VMState := ⟨0, [], [], []⟩

/-! ## Parser program construction (`src/parse.rs`, `Program::from_src`) -/

/-- `parse::Error` from `src/parse.rs` (lines 240-261), locations and
lexemes elided. -/
inductive PErr where
  | parseInt
  | pestParse
  | missingArg
  | matchToken
  | labelIndentation
  | extraneousArg
  | argType
  | excessLabels
  | standardUnsupported
  deriving DecidableEq, Repr

/-- One `command_part` of the parse tree, as dispatched by the `match
command_part.as_rule()` of `Program::from_src` (`src/parse.rs`, lines
494-555), with the token-level conversions (`try_from_keyword`,
`try_from_func`, the goto/gosub/set argument conversions) already
performed: `stmt c` covers the `kword_command_nfunc`, `command_func`,
`command_goto`, `command_gosub` and `command_set` arms, each of which
just pushes its command (none of them ever produces an `If`);
`ifThen` is the `command_if_then` arm; `label` carries the column of
the label token.

Modelled from the spec: the pest grammar `oriel.pest` is not in the
snapshot, so the shape of the parse tree (a program is a sequence of
`command_group`s, and an `IF … THEN` then-block extends to the close of
its enclosing group, §4.1 of the spec) is taken from the spec rather
than from the grammar file. -/
inductive SrcItem where
  | stmt (c : Cmd)
  | ifThen (i1 : Integer) (op : LogicalOperator) (i2 : Integer)
  | label (name : Identifier) (col : Nat)
  deriving DecidableEq, Repr

/-- Whether a command is an `If`. -/
def Cmd.isIf : Cmd → Bool
  | .if_ _ _ _ _ => true
  | _ => false

/-- `stmt` items never carry an `If`: in `src/parse.rs` the `If`
command is produced exclusively by the `command_if_then` arm. -/
def SrcItem.wf : SrcItem → Bool
  | .stmt c => !c.isIf
  | _ => true

/-- Number of commands an item appends (labels append none). -/
def SrcItem.emits : SrcItem → Nat
  | .label _ _ => 0
  | _ => 1

/-- Commands emitted by a whole group. -/
def cmdCount (items : List SrcItem) : Nat := (items.map SrcItem.emits).sum

/-- Commands emitted by a list of groups. -/
def totalCmds (groups : List (List SrcItem)) : Nat :=
  (groups.map cmdCount).sum

/-- Every item of every group is well-formed. -/
def groupsWf (groups : List (List SrcItem)) : Prop :=
  ∀ g ∈ groups, ∀ it ∈ g, it.wf = true

/-- The per-item body of the inner loops of `Program::from_src`
(`src/parse.rs`, lines 492-556), acting on the program under
construction and the `if_indices` of the current group:
- a statement is appended to `commands`;
- `IF … THEN` records `commands.len()` in `if_indices`, then appends
  the `If` with `goto_false: 0`;
- a label first enforces the pedantic 500-label cap
  (`ExcessLabels`), then the column-1 rule (`LabelIndentation`), then
  inserts `name → commands.len()` into the label map, silently
  overwriting any earlier declaration of the same name. -/
def processItem (cfg : Config) :
    Program × List Nat → SrcItem → Except PErr (Program × List Nat)
  | (prog, ifIdxs), .stmt c =>
    .ok ({ prog with commands := prog.commands ++ [c] }, ifIdxs)
  | (prog, ifIdxs), .ifThen i1 op i2 =>
    .ok ({ prog with commands := prog.commands ++ [.if_ i1 op i2 0] },
         ifIdxs ++ [prog.commands.length])
  | (prog, ifIdxs), .label name col =>
    if cfg.pedantic ∧ prog.labels.length ≥ 500 then
      .error .excessLabels
    else if col > 1 then
      .error .labelIndentation
    else
      .ok ({ prog with labels := insertA prog.labels name prog.commands.length },
           ifIdxs)

/-- The back-patch of one recorded `If` (`src/parse.rs`, lines 559-570):
`if let ir::Command::If { goto_false, .. } = &mut prog.commands[idx]`
sets `goto_false` to the target; a non-`If` cell is left untouched. -/
def patchIf (cmds : List Cmd) (idx tgt : Nat) : List Cmd :=
  match cmds[idx]? with
  | some (.if_ i1 op i2 _) => cmds.set idx (.if_ i1 op i2 tgt)
  | _ => cmds

/-- The back-patch loop: every index recorded in the closing group gets
`goto_false` set to the same target. -/
def patchIfs (cmds : List Cmd) (idxs : List Nat) (tgt : Nat) : List Cmd :=
  idxs.foldl (fun cs idx => patchIf cs idx tgt) cmds

/-- One iteration of the outer `for command_group` loop of
`Program::from_src`: process the group's items with a fresh
`if_indices`, then back-patch each recorded `If` to
`prog.commands.len()` — the command count at the close of the group. -/
def processGroup (cfg : Config) (prog : Program) (items : List SrcItem) :
    Except PErr Program := do
  let (p1, ifIdxs) ← items.foldlM (processItem cfg) (prog, [])
  pure { p1 with commands := patchIfs p1.commands ifIdxs p1.commands.length }

/-- `Program::from_src` (`src/parse.rs`, lines 481-576): fold the
groups over an empty program, then append the implicit trailing
`End`. -/
def fromSrc (cfg : Config) (groups : List (List SrcItem)) :
    Except PErr Program := do
  let p ← groups.foldlM (processGroup cfg) ⟨[], []⟩
  pure { p with commands := p.commands ++ [.end_] }

/-! ## Spec-side predicates

These re-state, in the spec's own arithmetical vocabulary, what
"under/overflow", "exact result" and "unsigned comparison" mean; the
claim theorems compare the code-derived definitions against them. -/

/-- The spec's "would under/overflow u16 or divide by zero" for each
`MathOperator`. -/
def mathOverflows : MathOperator → Nat → Nat → Prop
  | .add, i1, i2 => 65535 < i1 + i2
  | .subtract, i1, i2 => i1 < i2
  | .multiply, i1, i2 => 65535 < i1 * i2
  | .divide, _, i2 => i2 = 0

instance (op : MathOperator) (i1 i2 : Nat) :
    Decidable (mathOverflows op i1 i2) :=
  match op with
  | .add => inferInstanceAs (Decidable (65535 < i1 + i2))
  | .subtract => inferInstanceAs (Decidable (i1 < i2))
  | .multiply => inferInstanceAs (Decidable (65535 < i1 * i2))
  | .divide => inferInstanceAs (Decidable (i2 = 0))

/-- The spec's exact result of a non-overflowing operation (division
being integer division). -/
def specResult : MathOperator → Nat → Nat → Nat
  | .add, i1, i2 => i1 + i2
  | .subtract, i1, i2 => i1 - i2
  | .multiply, i1, i2 => i1 * i2
  | .divide, i1, i2 => i1 / i2

/-- The spec's unsigned comparison `= < > <= >= <>`. -/
def specCmp : LogicalOperator → Nat → Nat → Prop
  | .equal, i1, i2 => i1 = i2
  | .less, i1, i2 => i1 < i2
  | .greater, i1, i2 => i2 < i1
  | .lequal, i1, i2 => i1 ≤ i2
  | .gequal, i1, i2 => i2 ≤ i1
  | .nequal, i1, i2 => i1 ≠ i2

theorem eval_none_iff (op : MathOperator) (i1 i2 : Nat) :
    op.eval i1 i2 = none ↔ mathOverflows op i1 i2 := by
  cases op <;> simp [MathOperator.eval, mathOverflows] <;> omega

theorem eval_some_of_not_overflow (op : MathOperator) (i1 i2 : Nat)
    (h : ¬ mathOverflows op i1 i2) :
    op.eval i1 i2 = some (specResult op i1 i2) := by
  cases op <;> simp [MathOperator.eval, mathOverflows, specResult] at h ⊢ <;> omega

/-! ## Claim C1 -/

/-- C1 counterexample: the claim says the dialect defaults to `win3.1`
when `--std` is absent, but `main` (`src/main.rs`) falls back to
`Standard::default()`, whose `#[default]` variant (`src/cfg.rs`) is
`WIN3_0` — so an invocation without `--std` gets `win3.0`, not
`win3.1`. -/
theorem c1_default_standard_counterexample :
    mainStandard none = some Standard.WIN3_0 ∧
    Standard.WIN3_0 ≠ Standard.WIN3_1 := by
  decide

/-- C1 (amended): when `--std` is not given the configuration's
standard defaults to `win3.0`; an explicit `--std win3.0` or
`--std win3.1` selects the named standard. -/
theorem c1_default_standard :
    mainStandard none = some Standard.WIN3_0 ∧
    mainStandard (some "win3.0") = some Standard.WIN3_0 ∧
    mainStandard (some "win3.1") = some Standard.WIN3_1 := by
  decide

/-! ## Claim C4 -/

/-- C4: executing `Set var = i1 op i2` on 16-bit operand values raises
`MathOperation` — and the aborted run makes no further host calls —
exactly when the operation would under/overflow `u16` or divide by
zero; otherwise it stores the exact result (integer division for `/`),
which fits in `u16`, advances `ip`, and makes no host call. -/
theorem c4_set_checked_arithmetic
    (p : Program) (cfg : Config) (host : Host) (s : VMState)
    (var : Identifier) (i1 : Nat) (op : MathOperator) (i2 : Nat)
    (h1 : i1 < 65536) (h2 : i2 < 65536)
    (hcmd : p.commands[s.ip]? =
      some (.set var (.expression (.literal i1) op (.literal i2)))) :
    (mathOverflows op i1 i2 →
      step p cfg host s = ([], .err .mathOperation) ∧
      ∀ fuel, runFuel p cfg host (fuel + 1) s = ([], .failed .mathOperation)) ∧
    (¬ mathOverflows op i1 i2 →
      (cfg.pedantic = false ∨ s.vars.length < 500) →
      step p cfg host s =
        ([], .cont { s with vars := insertA s.vars var (specResult op i1 i2), ip := s.ip + 1 }) ∧
      specResult op i1 i2 < 65536) := by
  have hstep := step_some cfg host hcmd
  constructor
  · intro hov
    have hnone : op.eval i1 i2 = none := (eval_none_iff op i1 i2).mpr hov
    have hs : step p cfg host s = ([], .err .mathOperation) := by
      rw [hstep]
      simp [stepCmd, getInteger, hnone, bind, Except.bind]
    refine ⟨hs, fun fuel => ?_⟩
    simp [runFuel, hs]
  · intro hov hcap
    have hsome : op.eval i1 i2 = some (specResult op i1 i2) :=
      eval_some_of_not_overflow op i1 i2 hov
    have hset : setVariable cfg s.vars var (specResult op i1 i2) =
        .ok (insertA s.vars var (specResult op i1 i2)) := by
      rcases hcap with hcap | hcap <;> simp [setVariable, hcap] <;> omega
    constructor
    · rw [hstep]
      simp [stepCmd, getInteger, hsome, hset, bind, Except.bind, pure, Except.pure]
    · cases op with
      | divide => exact lt_of_le_of_lt (Nat.div_le_self _ _) h1
      | add => simp [mathOverflows] at hov; simp [specResult]; omega
      | subtract => simp [specResult]; omega
      | multiply => simp [mathOverflows] at hov; simp [specResult]; omega

/-- C4 witness: `SET x = 65535 + 1` raises `MathOperation` with no host
calls; `SET x = 7 / 2` stores `3`. -/
theorem c4_set_checked_arithmetic_witness :
    (step ⟨[.set "x" (.expression (.literal 65535) .add (.literal 1))], []⟩
        ⟨false, .WIN3_0⟩ hostStub initState = ([], .err .mathOperation)) ∧
    (step ⟨[.set "x" (.expression (.literal 7) .divide (.literal 2))], []⟩
        ⟨false, .WIN3_0⟩ hostStub initState =
      ([], .cont { initState with vars := insertA initState.vars "x" (specResult .divide 7 2), ip := initState.ip + 1 })) := by
  constructor
  · exact ((c4_set_checked_arithmetic
      ⟨[.set "x" (.expression (.literal 65535) .add (.literal 1))], []⟩
      ⟨false, .WIN3_0⟩ hostStub initState "x" 65535 .add 1
      (by decide) (by decide) rfl).1 (by decide)).1
  · exact ((c4_set_checked_arithmetic
      ⟨[.set "x" (.expression (.literal 7) .divide (.literal 2))], []⟩
      ⟨false, .WIN3_0⟩ hostStub initState "x" 7 .divide 2
      (by decide) (by decide) rfl).2 (by decide) (Or.inl rfl)).1

/-! ## Claim C8 -/

/-- C8: executing `If{i1, op, i2, jump_false}` on 16-bit operand values
makes no host call and raises no error; it sets `ip` to `ip + 1` when
the comparison holds and to `jump_false` when it does not, and the
code's `LogicalOperator::cmp` agrees with the unsigned comparison the
spec names. -/
theorem c8_if_branch
    (p : Program) (cfg : Config) (host : Host) (s : VMState)
    (i1 : Nat) (op : LogicalOperator) (i2 : Nat) (gf : Nat)
    (h1 : i1 < 65536) (h2 : i2 < 65536)
    (hcmd : p.commands[s.ip]? =
      some (.if_ (.literal i1) op (.literal i2) gf)) :
    step p cfg host s =
      ([], .cont { s with ip := if op.cmp i1 i2 then s.ip + 1 else gf }) ∧
    (op.cmp i1 i2 = true ↔ specCmp op i1 i2) := by
  constructor
  · rw [step_some cfg host hcmd]
    rfl
  · cases op <;> simp [LogicalOperator.cmp, specCmp]

/-- C8 witness: `IF 1 < 2 THEN` at `ip = 0` falls through to `ip = 1`
with no host call. -/
theorem c8_if_branch_witness :
    step ⟨[.if_ (.literal 1) .less (.literal 2) 5], []⟩ ⟨false, .WIN3_0⟩
        hostStub initState =
      ([], .cont { initState with
                   ip := if LogicalOperator.cmp .less 1 2 then
                           initState.ip + 1 else 5 }) ∧
    (LogicalOperator.cmp .less 1 2 = true ↔ specCmp .less 1 2) :=
  c8_if_branch ⟨[.if_ (.literal 1) .less (.literal 2) 5], []⟩ ⟨false, .WIN3_0⟩
    hostStub initState 1 .less 2 5 (by decide) (by decide) rfl

/-! ## Claim C5 -/

/-- C5: in pedantic mode, an integer-variable definition with 500
distinct variables already in the store raises `ExcessVariables`, a
string-variable definition with 200 already present raises
`ExcessStringVariables`, and a label declaration with 500 labels
already collected raises `ExcessLabels` at parse time; with
`pedantic = false` every such operation succeeds unconditionally. -/
theorem c5_pedantic_limits (cfg : Config) :
    (cfg.pedantic = true →
      (∀ (vars : VarsI) (ident : Identifier) (val : Nat),
        vars.length = 500 → lookupA vars ident = none →
        setVariable cfg vars ident val = .error .excessVariables) ∧
      (∀ (vars : VarsS) (ident : Identifier) (val : String),
        vars.length = 200 → lookupA vars ident = none →
        setVariableStr cfg vars ident val = .error .excessVariablesStr) ∧
      (∀ (prog : Program) (ifIdxs : List Nat) (name : Identifier),
        prog.labels.length = 500 →
        processItem cfg (prog, ifIdxs) (.label name 1) = .error .excessLabels)) ∧
    (cfg.pedantic = false →
      (∀ (vars : VarsI) (ident : Identifier) (val : Nat),
        setVariable cfg vars ident val = .ok (insertA vars ident val)) ∧
      (∀ (vars : VarsS) (ident : Identifier) (val : String),
        setVariableStr cfg vars ident val = .ok (insertA vars ident val)) ∧
      (∀ (prog : Program) (ifIdxs : List Nat) (name : Identifier) (col : Nat),
        ¬ col > 1 →
        processItem cfg (prog, ifIdxs) (.label name col) =
          .ok ({ prog with labels := insertA prog.labels name prog.commands.length }, ifIdxs))) := by
  constructor
  · intro hped
    refine ⟨fun vars ident val hlen _ => ?_, fun vars ident val hlen _ => ?_,
            fun prog ifIdxs name hlen => ?_⟩
    · simp [setVariable, hped, hlen]
    · simp [setVariableStr, hped, hlen]
    · simp [processItem, hped, hlen]
  · intro hped
    refine ⟨fun vars ident val => ?_, fun vars ident val => ?_,
            fun prog ifIdxs name col hcol => ?_⟩
    · simp [setVariable, hped]
    · simp [setVariableStr, hped]
    · simp [processItem, hped, hcol]

/-- A store of 500 distinct integer variables. -/
def bigVarsI : VarsI := (List.range 500).map (fun i => (toString i, 0))

/-- A store of 200 distinct string variables. -/
def bigVarsS : VarsS := (List.range 200).map (fun i => (toString i, ""))

/-- A label table of 500 distinct labels. -/
def bigLabels : List (Identifier × Nat) :=
  (List.range 500).map (fun i => (toString i, 0))

set_option maxRecDepth 10000 in
/-- C5 witness: the limits fire on full stores and do not exist without
`--pedantic`. -/
theorem c5_pedantic_limits_witness :
    setVariable ⟨true, .WIN3_0⟩ bigVarsI "x" 1 = .error .excessVariables ∧
    setVariableStr ⟨true, .WIN3_0⟩ bigVarsS "x" "s" = .error .excessVariablesStr ∧
    processItem ⟨true, .WIN3_0⟩ (⟨[], bigLabels⟩, []) (.label "x" 1) = .error .excessLabels ∧
    setVariable ⟨false, .WIN3_0⟩ bigVarsI "x" 1 = .ok (insertA bigVarsI "x" 1) ∧
    processItem ⟨false, .WIN3_0⟩ (⟨[], bigLabels⟩, []) (.label "x" 1) =
      .ok (⟨[], insertA bigLabels "x" 0⟩, []) := by
  have hped := (c5_pedantic_limits ⟨true, .WIN3_0⟩).1 rfl
  have hfree := (c5_pedantic_limits ⟨false, .WIN3_0⟩).2 rfl
  refine ⟨hped.1 bigVarsI "x" 1 (by simp [bigVarsI]) (by decide),
          hped.2.1 bigVarsS "x" "s" (by simp [bigVarsS]) (by decide),
          hped.2.2 ⟨[], bigLabels⟩ [] "x" (by simp [bigLabels]),
          hfree.1 bigVarsI "x" 1,
          hfree.2.2 ⟨[], bigLabels⟩ [] "x" 1 (by decide)⟩

/-! ## Claim C6 -/

/-- C6: evaluating an unbound integer variable yields `0` and binds it
to `0` in the store (growing the store by one entry, so the pedantic
counters advance); evaluating an unbound string variable yields `""`
and binds it likewise. -/
theorem c6_read_defines_default
    (cfg : Config) (vars : VarsI) (varsS : VarsS) (ident : Identifier)
    (hint : lookupA vars ident = none)
    (hcap : cfg.pedantic = false ∨ vars.length < 500)
    (hstr : lookupA varsS ident = none)
    (hcapS : cfg.pedantic = false ∨ varsS.length < 200) :
    (getInteger cfg vars (.variable_ ident) = .ok (0, insertA vars ident 0) ∧
      lookupA (insertA vars ident 0) ident = some 0 ∧
      (insertA vars ident 0).length = vars.length + 1) ∧
    (getStr cfg varsS (.variable_ ident) = .ok ("", insertA varsS ident "") ∧
      lookupA (insertA varsS ident "") ident = some "" ∧
      (insertA varsS ident "").length = varsS.length + 1) := by
  have hset : setVariable cfg vars ident 0 = .ok (insertA vars ident 0) := by
    rcases hcap with h | h <;> simp [setVariable, h] <;> omega
  have hsetS : setVariableStr cfg varsS ident "" = .ok (insertA varsS ident "") := by
    rcases hcapS with h | h <;> simp [setVariableStr, h] <;> omega
  refine ⟨⟨?_, lookupA_insertA_self _ _ _, insertA_length_of_not_mem _ _ _ hint⟩,
          ⟨?_, lookupA_insertA_self _ _ _, insertA_length_of_not_mem _ _ _ hstr⟩⟩
  · simp [getInteger, hint, hset, bind, Except.bind, pure, Except.pure]
  · simp [getStr, hstr, hsetS, bind, Except.bind, pure, Except.pure]

/-- C6 witness: reading unbound `v` from empty stores yields the
defaults and defines the variable. -/
theorem c6_read_defines_default_witness :
    (getInteger ⟨true, .WIN3_0⟩ [] (.variable_ "v") = .ok (0, insertA [] "v" 0) ∧
      lookupA (insertA [] "v" 0) "v" = some 0 ∧
      (insertA ([] : VarsI) "v" 0).length = List.length ([] : VarsI) + 1) ∧
    (getStr ⟨true, .WIN3_0⟩ [] (.variable_ "v") = .ok ("", insertA [] "v" "") ∧
      lookupA (insertA [] "v" "") "v" = some "" ∧
      (insertA ([] : VarsS) "v" "").length = List.length ([] : VarsS) + 1) :=
  c6_read_defines_default ⟨true, .WIN3_0⟩ [] [] "v" rfl (Or.inr (by decide))
    rfl (Or.inr (by decide))

/-! ## Claim C9 -/

/-- C9: in pedantic mode the cap check of `VM::set_variable` /
`VM::set_variable_str` compares the map size before every insert
without distinguishing update from new definition, so an assignment to
an already-defined variable still raises `ExcessVariables` (at 500) or
`ExcessStringVariables` (at 200). -/
theorem c9_pedantic_cap_hits_updates (cfg : Config) (hped : cfg.pedantic = true) :
    (∀ (vars : VarsI) (ident : Identifier) (val : Nat),
      500 ≤ vars.length → (lookupA vars ident).isSome →
      setVariable cfg vars ident val = .error .excessVariables) ∧
    (∀ (vars : VarsS) (ident : Identifier) (val : String),
      200 ≤ vars.length → (lookupA vars ident).isSome →
      setVariableStr cfg vars ident val = .error .excessVariablesStr) := by
  constructor
  · intro vars ident val hlen _
    simp [setVariable, hped, hlen]
  · intro vars ident val hlen _
    simp [setVariableStr, hped, hlen]

set_option maxRecDepth 10000 in
/-- C9 witness: re-assigning the already-defined variable `"0"` in a
full store still errors. -/
theorem c9_pedantic_cap_hits_updates_witness :
    setVariable ⟨true, .WIN3_0⟩ bigVarsI "0" 7 = .error .excessVariables ∧
    setVariableStr ⟨true, .WIN3_0⟩ bigVarsS "0" "s" = .error .excessVariablesStr := by
  have h := c9_pedantic_cap_hits_updates ⟨true, .WIN3_0⟩ rfl
  exact ⟨h.1 bigVarsI "0" 7 (by simp [bigVarsI]) (by decide),
         h.2 bigVarsS "0" "s" (by simp [bigVarsS]) (by decide)⟩

/-! ## Claim C2 -/

set_option maxHeartbeats 1000000 in
theorem tryFrom_isSome_iff (n : Nat) :
    (VirtualKey.tryFrom n).isSome = true ↔ n ∈ vkCodes := by
  unfold VirtualKey.tryFrom
  split
  all_goals simp_all [vkCodes]

/-- C2 counterexample: the claim asserts that every code in `106..111`
resolves to a virtual key, but `108` is absent from the
`TryFrom<u16> for VirtualKey` table, so executing `SetKeyboard` with
virtual-key code `108` raises `InvalidVirtualKey`. -/
theorem c2_virtual_key_counterexample :
    (106 ≤ 108 ∧ 108 ≤ 111) ∧
    VirtualKey.tryFrom 108 = none ∧
    step ⟨[.setKeyboard [(.virtual_ (.literal 108), "l")]], []⟩
        ⟨false, .WIN3_0⟩ hostStub initState = ([], .err .invalidVirtualKey) := by
  exact ⟨by decide, rfl, rfl⟩

/-- C2 (amended): virtual-key resolution at execution of `SetKeyboard`
succeeds exactly for the codes of the table in `src/ir.rs` — which
omits `108` from the numpad-symbol range and all of `193..218` from the
punctuation range, and additionally contains `12`, `19`, `20` and `44`
— and every code outside the table raises `InvalidVirtualKey`. -/
theorem c2_virtual_key_table :
    (∀ n : Nat, (VirtualKey.tryFrom n).isSome = true ↔ n ∈ vkCodes) ∧
    (108 ∉ vkCodes ∧ ∀ m : Nat, 193 ≤ m → m ≤ 218 → m ∉ vkCodes) ∧
    (12 ∈ vkCodes ∧ 19 ∈ vkCodes ∧ 20 ∈ vkCodes ∧ 44 ∈ vkCodes) ∧
    (∀ (p : Program) (cfg : Config) (host : Host) (s : VMState)
       (n : Nat) (lbl : Identifier),
      p.commands[s.ip]? = some (.setKeyboard [(.virtual_ (.literal n), lbl)]) →
      (n ∈ vkCodes →
        ∃ vk, VirtualKey.tryFrom n = some vk ∧
          step p cfg host s =
            hostUnitStep s (.setKeyboard [(.virtual_ vk, lbl)])
              (host.setKeyboard [(.virtual_ vk, lbl)])) ∧
      (n ∉ vkCodes → step p cfg host s = ([], .err .invalidVirtualKey))) := by
  refine ⟨tryFrom_isSome_iff, ⟨by decide, ?_⟩, by decide, ?_⟩
  · intro m h1 h2
    interval_cases m <;> decide
  · intro p cfg host s n lbl hcmd
    have hstep := step_some cfg host hcmd
    constructor
    · intro hmem
      have hsome : (VirtualKey.tryFrom n).isSome = true :=
        (tryFrom_isSome_iff n).mpr hmem
      obtain ⟨vk, hvk⟩ := Option.isSome_iff_exists.mp hsome
      refine ⟨vk, hvk, ?_⟩
      rw [hstep]
      simp [stepCmd, resolveKeys, getInteger, hvk, bind, Except.bind, pure,
        Except.pure]
    · intro hmem
      have hnone : VirtualKey.tryFrom n = none := by
        cases h : VirtualKey.tryFrom n with
        | none => rfl
        | some vk =>
          exact absurd ((tryFrom_isSome_iff n).mp (by simp [h])) hmem
      rw [hstep]
      simp [stepCmd, resolveKeys, getInteger, hnone, bind, Except.bind]

/-- C2 witness: code `65` resolves (to the letter `A`) and reaches the
host; code `200` raises `InvalidVirtualKey`. -/
theorem c2_virtual_key_table_witness :
    (∃ vk, VirtualKey.tryFrom 65 = some vk ∧
      step ⟨[.setKeyboard [(.virtual_ (.literal 65), "l")]], []⟩
          ⟨false, .WIN3_0⟩ hostStub initState =
        hostUnitStep initState (.setKeyboard [(.virtual_ vk, "l")])
          (hostStub.setKeyboard [(.virtual_ vk, "l")])) ∧
    step ⟨[.setKeyboard [(.virtual_ (.literal 200), "l")]], []⟩
        ⟨false, .WIN3_0⟩ hostStub initState = ([], .err .invalidVirtualKey) := by
  refine ⟨((c2_virtual_key_table.2.2.2
    ⟨[.setKeyboard [(.virtual_ (.literal 65), "l")]], []⟩
    ⟨false, .WIN3_0⟩ hostStub initState 65 "l" rfl).1 (by decide)), ?_⟩
  exact (c2_virtual_key_table.2.2.2
    ⟨[.setKeyboard [(.virtual_ (.literal 200), "l")]], []⟩
    ⟨false, .WIN3_0⟩ hostStub initState 200 "l" rfl).2 (by decide)

/-! ## Claim C10 -/

/-- C10: the label arm of `Program::from_src` never checks for an
existing binding: re-declaring a label (column 1, within the pedantic
cap) succeeds and overwrites the map entry with the current command
count.  Concretely, a program declaring the same label twice parses
without error and maps the name to the index of the last declaration;
`Goto` and `Gosub` executed against the resulting map jump there. -/
theorem c10_duplicate_labels :
    (∀ (cfg : Config) (prog : Program) (ifIdxs : List Nat) (name : Identifier),
      (cfg.pedantic = false ∨ prog.labels.length < 500) →
      processItem cfg (prog, ifIdxs) (.label name 1) =
        .ok ({ prog with labels := insertA prog.labels name prog.commands.length }, ifIdxs) ∧
      lookupA (insertA prog.labels name prog.commands.length) name =
        some prog.commands.length) ∧
    (∀ (cfg : Config) (c c' : Cmd) (name : Identifier), cfg.pedantic = false →
      fromSrc cfg [[.label name 1, .stmt c, .label name 1, .stmt c']] =
        .ok ⟨[c, c', .end_], insertA (insertA [] name 0) name 1⟩ ∧
      lookupA (insertA (insertA ([] : List (Identifier × Nat)) name 0) name 1)
        name = some 1) ∧
    (∀ (p : Program) (cfg : Config) (host : Host) (s : VMState)
       (name : Identifier) (tgt : Nat),
      lookupA p.labels name = some tgt →
      (p.commands[s.ip]? = some (.goto name) →
        step p cfg host s = ([], .cont { s with ip := tgt })) ∧
      (p.commands[s.ip]? = some (.gosub name) →
        step p cfg host s =
          ([], .cont { s with ip := tgt, callStack := (s.ip + 1) :: s.callStack }))) := by
  refine ⟨?_, ?_, ?_⟩
  · intro cfg prog ifIdxs name hcap
    constructor
    · rcases hcap with h | h <;> simp [processItem, h] <;> omega
    · exact lookupA_insertA_self _ _ _
  · intro cfg c c' name hped
    constructor
    · simp [fromSrc, processGroup, processItem, patchIfs, hped, List.foldlM,
        bind, Except.bind, pure, Except.pure]
    · simp [insertA, lookupA]
  · intro p cfg host s name tgt htgt
    constructor
    · intro hcmd
      rw [step_some cfg host hcmd]
      simp [stepCmd, gotoLabel, htgt]
    · intro hcmd
      rw [step_some cfg host hcmd]
      simp [stepCmd, gotoLabel, htgt]

/-- C10 witness: re-declaring `a` with three commands already emitted
rebinds it to index `3`; the two-declaration program parses and sends
`a` to `1`; `Goto a` jumps to the rebound index. -/
theorem c10_duplicate_labels_witness :
    (processItem ⟨false, .WIN3_0⟩ (⟨[.beep, .beep, .beep], [("a", 5)]⟩, [])
        (.label "a" 1) =
      .ok (⟨[.beep, .beep, .beep], insertA [("a", 5)] "a" 3⟩, []) ∧
      lookupA (insertA [("a", 5)] "a" 3) "a" = some 3) ∧
    (fromSrc ⟨false, .WIN3_0⟩
        [[.label "a" 1, .stmt .beep, .label "a" 1, .stmt .drawBackground]] =
      .ok ⟨[.beep, .drawBackground, .end_], insertA (insertA [] "a" 0) "a" 1⟩) ∧
    step ⟨[.goto "a", .beep], [("a", 1)]⟩ ⟨false, .WIN3_0⟩ hostStub initState =
      ([], .cont { initState with ip := 1 }) := by
  refine ⟨(c10_duplicate_labels.1 ⟨false, .WIN3_0⟩ ⟨[.beep, .beep, .beep], [("a", 5)]⟩
    [] "a" (Or.inl rfl)), ?_, ?_⟩
  · exact (c10_duplicate_labels.2.1 ⟨false, .WIN3_0⟩ .beep .drawBackground "a" rfl).1
  · exact (c10_duplicate_labels.2.2 ⟨[.goto "a", .beep], [("a", 1)]⟩
      ⟨false, .WIN3_0⟩ hostStub initState "a" 1 rfl).1 rfl

/-! ## Claim C7 -/

set_option maxHeartbeats 2000000 in
theorem step_cont_callStack (p : Program) (cfg : Config) (host : Host)
    {s s' : VMState} {calls : List HostCall}
    (h : step p cfg host s = (calls, .cont s')) :
    s'.callStack = s.callStack ∨
    s'.callStack = (s.ip + 1) :: s.callStack ∨
    s.callStack = s'.ip :: s'.callStack := by
  unfold step at h
  split at h
  · simp at h
  · rename_i cmd hcmd
    cases cmd <;>
      simp only [stepCmd, hostUnitStep, bind, Except.bind.eq_def,
        Bind.bind, Monad.toBind, Except.instMonad] at h <;>
      (repeat' split at h) <;>
      simp_all <;>
      (try (obtain ⟨h1, h2⟩ := h; subst h2; simp))

/-- Executions made of continuing steps in which every intermediate
state keeps strictly more than `n` frames on the call stack. -/
inductive ReachAbove (p : Program) (cfg : Config) (host : Host) (n : Nat) :
    VMState → VMState → Prop where
  | refl (s : VMState) : ReachAbove p cfg host n s s
  | step {s s' s'' : VMState} (calls : List HostCall)
      (h : step p cfg host s = (calls, .cont s'))
      (hlen : n < s'.callStack.length)
      (htail : ReachAbove p cfg host n s' s'') : ReachAbove p cfg host n s s''

/-- A call-stack suffix of `n + 1` frames survives any execution that
never pops the stack to `n` frames or fewer: steps either leave the
stack alone, push on top of it, or pop a frame strictly above the
protected suffix. -/
theorem reachAbove_suffix (p : Program) (cfg : Config) (host : Host)
    {n : Nat} {s s' : VMState} {l : List Nat}
    (hr : ReachAbove p cfg host n s s') (hsuf : l <:+ s.callStack)
    (hlen : l.length = n + 1) : l <:+ s'.callStack := by
  induction hr with
  | refl s => exact hsuf
  | step calls h hlen' htail ih =>
    apply ih
    rcases step_cont_callStack p cfg host h with hc | hc | hc
    · rwa [hc]
    · rw [hc]
      exact hsuf.trans (List.suffix_cons _ _)
    · rw [hc] at hsuf
      rcases List.suffix_cons_iff.mp hsuf with heq | hsuf'
      · exfalso
        have hlc := congrArg List.length heq
        simp at hlc
        omega
      · exact hsuf'

/-- C7: `Gosub` pushes `ip + 1` and jumps to the label's index;
`Return` pops the call stack into `ip` and errors with
`CallStackExhausted` on an empty stack; and across any balanced
nesting of `Gosub`/`Return` pairs — an execution from the state after
the outermost `Gosub` that never pops to the outer stack height, ending
at a `Return` with exactly one frame above it — that `Return` sets `ip`
to the position immediately after the outermost `Gosub` and restores
the outer call stack. -/
theorem c7_gosub_return (p : Program) (cfg : Config) (host : Host) :
    (∀ (s : VMState) (lbl : Identifier) (tgt : Nat),
      p.commands[s.ip]? = some (.gosub lbl) →
      lookupA p.labels lbl = some tgt →
      step p cfg host s =
        ([], .cont { s with ip := tgt, callStack := (s.ip + 1) :: s.callStack })) ∧
    (∀ s : VMState,
      p.commands[s.ip]? = some .return_ →
      (∀ top rest, s.callStack = top :: rest →
        step p cfg host s = ([], .cont { s with ip := top, callStack := rest })) ∧
      (s.callStack = [] →
        step p cfg host s = ([], .err .callStackExhausted))) ∧
    (∀ (s0 s1 s2 : VMState) (lbl : Identifier) (tgt : Nat),
      p.commands[s0.ip]? = some (.gosub lbl) →
      lookupA p.labels lbl = some tgt →
      s1 = { s0 with ip := tgt, callStack := (s0.ip + 1) :: s0.callStack } →
      ReachAbove p cfg host s0.callStack.length s1 s2 →
      s2.callStack.length = s0.callStack.length + 1 →
      p.commands[s2.ip]? = some .return_ →
      step p cfg host s2 =
        ([], .cont { s2 with ip := s0.ip + 1, callStack := s0.callStack })) := by
  have hgosub : ∀ (s : VMState) (lbl : Identifier) (tgt : Nat),
      p.commands[s.ip]? = some (.gosub lbl) →
      lookupA p.labels lbl = some tgt →
      step p cfg host s =
        ([], .cont { s with ip := tgt, callStack := (s.ip + 1) :: s.callStack }) := by
    intro s lbl tgt hcmd htgt
    rw [step_some cfg host hcmd]
    simp [stepCmd, gotoLabel, htgt]
  have hret : ∀ s : VMState,
      p.commands[s.ip]? = some .return_ →
      (∀ top rest, s.callStack = top :: rest →
        step p cfg host s = ([], .cont { s with ip := top, callStack := rest })) ∧
      (s.callStack = [] →
        step p cfg host s = ([], .err .callStackExhausted)) := by
    intro s hcmd
    constructor
    · intro top rest hcs
      rw [step_some cfg host hcmd]
      simp [stepCmd, hcs]
    · intro hcs
      rw [step_some cfg host hcmd]
      simp [stepCmd, hcs]
  refine ⟨hgosub, hret, ?_⟩
  intro s0 s1 s2 lbl tgt hcmd htgt hs1 hreach hlen hretcmd
  have hsuf : ((s0.ip + 1) :: s0.callStack) <:+ s2.callStack := by
    refine reachAbove_suffix p cfg host hreach ?_ (by simp)
    rw [hs1]
  have heq : s2.callStack = (s0.ip + 1) :: s0.callStack :=
    (List.IsSuffix.eq_of_length hsuf (by simp [hlen])).symm
  exact (hret s2 hretcmd).1 (s0.ip + 1) s0.callStack heq

/-- C7 witness: in `GOSUB sub; END; sub: BEEP; RETURN`, the `Return`
after the subroutine's `Beep` restores `ip` to the command after the
`Gosub`, and a `Return` on an empty stack errors. -/
theorem c7_gosub_return_witness :
    (step ⟨[.gosub "sub", .end_, .beep, .return_], [("sub", 2)]⟩
        ⟨false, .WIN3_0⟩ hostStub ⟨3, [], [], [1]⟩ =
      ([], .cont ⟨1, [], [], []⟩)) ∧
    (step ⟨[.gosub "sub", .end_, .beep, .return_], [("sub", 2)]⟩
        ⟨false, .WIN3_0⟩ hostStub ⟨3, [], [], []⟩ =
      ([], .err .callStackExhausted)) := by
  have h := c7_gosub_return
    ⟨[.gosub "sub", .end_, .beep, .return_], [("sub", 2)]⟩
    ⟨false, .WIN3_0⟩ hostStub
  constructor
  · exact h.2.2 ⟨0, [], [], []⟩ ⟨2, [], [], [1]⟩ ⟨3, [], [], [1]⟩ "sub" 2
      rfl rfl rfl
      (ReachAbove.step [.beep] rfl (by decide) (ReachAbove.refl _))
      rfl rfl
  · exact (h.2.1 ⟨3, [], [], []⟩ rfl).2 rfl

/-! ## Claim C3 -/

theorem patchIf_length (cmds : List Cmd) (idx tgt : Nat) :
    (patchIf cmds idx tgt).length = cmds.length := by
  unfold patchIf
  split <;> simp

theorem patchIf_getElem_ne (cmds : List Cmd) (idx tgt j : Nat) (hj : j ≠ idx) :
    (patchIf cmds idx tgt)[j]? = cmds[j]? := by
  unfold patchIf
  split
  · exact List.getElem?_set_ne (fun h => hj h.symm)
  · rfl

theorem patchIf_getElem_self (cmds : List Cmd) (idx tgt : Nat)
    (i1 : Integer) (op : LogicalOperator) (i2 : Integer) (gf : Nat)
    (h : cmds[idx]? = some (.if_ i1 op i2 gf)) :
    (patchIf cmds idx tgt)[idx]? = some (.if_ i1 op i2 tgt) := by
  have hidx : idx < cmds.length := by
    by_contra hc
    rw [List.getElem?_eq_none (by omega)] at h
    exact Option.noConfusion h
  unfold patchIf
  rw [h]
  exact List.getElem?_set_self hidx

theorem patchIfs_length (idxs : List Nat) (cmds : List Cmd) (tgt : Nat) :
    (patchIfs cmds idxs tgt).length = cmds.length := by
  induction idxs generalizing cmds with
  | nil => rfl
  | cons i t ih => simpa [patchIfs, List.foldl_cons] using
      (ih (patchIf cmds i tgt)).trans (patchIf_length cmds i tgt)

theorem patchIfs_getElem_not_mem (idxs : List Nat) (cmds : List Cmd)
    (tgt j : Nat) (hj : j ∉ idxs) :
    (patchIfs cmds idxs tgt)[j]? = cmds[j]? := by
  induction idxs generalizing cmds with
  | nil => rfl
  | cons i t ih =>
    have hji : j ≠ i := fun h => hj (h ▸ List.mem_cons_self i t)
    have hjt : j ∉ t := fun h => hj (List.mem_cons_of_mem i h)
    calc (patchIfs cmds (i :: t) tgt)[j]?
        = (patchIfs (patchIf cmds i tgt) t tgt)[j]? := rfl
      _ = (patchIf cmds i tgt)[j]? := ih _ hjt
      _ = cmds[j]? := patchIf_getElem_ne cmds i tgt j hji

theorem patchIfs_getElem_mem (idxs : List Nat) (cmds : List Cmd)
    (tgt j : Nat) (hj : j ∈ idxs)
    (i1 : Integer) (op : LogicalOperator) (i2 : Integer) (gf : Nat)
    (h : cmds[j]? = some (.if_ i1 op i2 gf)) :
    (patchIfs cmds idxs tgt)[j]? = some (.if_ i1 op i2 tgt) := by
  induction idxs generalizing cmds gf with
  | nil => cases hj
  | cons i t ih =>
    by_cases hji : j = i
    · subst hji
      have h1 : (patchIf cmds j tgt)[j]? = some (.if_ i1 op i2 tgt) :=
        patchIf_getElem_self cmds j tgt i1 op i2 gf h
      by_cases hjt : j ∈ t
      · exact ih (patchIf cmds j tgt) hjt tgt h1
      · calc (patchIfs cmds (j :: t) tgt)[j]?
            = (patchIfs (patchIf cmds j tgt) t tgt)[j]? := rfl
          _ = (patchIf cmds j tgt)[j]? := patchIfs_getElem_not_mem t _ tgt j hjt
          _ = some (.if_ i1 op i2 tgt) := h1
    · have hjt : j ∈ t := by
        rcases List.mem_cons.mp hj with h' | h'
        · exact absurd h' hji
        · exact h'
      have h1 : (patchIf cmds i tgt)[j]? = some (.if_ i1 op i2 gf) := by
        rw [patchIf_getElem_ne cmds i tgt j hji]
        exact h
      exact ih (patchIf cmds i tgt) hjt gf h1

/-- Effect of the per-group item fold of `Program::from_src`: commands
only grow at the tail, `if_indices` records exactly the positions of
the `If` commands appended during the group, and each of those cells
holds an `If` with the placeholder target `0`. -/
theorem foldItems_spec (cfg : Config) (items : List SrcItem) :
    ∀ (prog : Program) (ifIdxs : List Nat) (res : Program × List Nat),
    (∀ it ∈ items, it.wf = true) →
    items.foldlM (processItem cfg) (prog, ifIdxs) = .ok res →
    res.1.commands.length = prog.commands.length + cmdCount items ∧
    (∀ j, j < prog.commands.length → res.1.commands[j]? = prog.commands[j]?) ∧
    (∃ newIdxs, res.2 = ifIdxs ++ newIdxs ∧
      (∀ idx ∈ newIdxs, prog.commands.length ≤ idx ∧
        ∃ i1 op i2, res.1.commands[idx]? = some (.if_ i1 op i2 0)) ∧
      (∀ j, prog.commands.length ≤ j →
        ∀ i1 op i2 gf, res.1.commands[j]? = some (.if_ i1 op i2 gf) →
        j ∈ newIdxs)) := by
  induction items with
  | nil =>
    intro prog ifIdxs res _ h
    simp only [List.foldlM_nil] at h
    cases h
    refine ⟨by simp [cmdCount], fun j _ => rfl, [], by simp, by simp, ?_⟩
    intro j hj i1 op i2 gf hcell
    rw [List.getElem?_eq_none hj] at hcell
    exact Option.noConfusion hcell
  | cons it t ih =>
    intro prog ifIdxs res hwf h
    rw [List.foldlM_cons] at h
    have hwft : ∀ x ∈ t, x.wf = true := fun x hx => hwf x (List.mem_cons_of_mem it hx)
    cases it with
    | stmt c =>
      have hc : c.isIf = false := by
        have := hwf (.stmt c) (List.mem_cons_self _ _)
        simpa [SrcItem.wf] using this
      simp only [processItem, Except.bind] at h
      obtain ⟨hlen, hpre, newIdxs, hidx, hbound, hcover⟩ :=
        ih ({ prog with commands := prog.commands ++ [c] }) ifIdxs res hwft h
      refine ⟨?_, ?_, newIdxs, hidx, ?_, ?_⟩
      · simp only [hlen]
        simp [cmdCount, SrcItem.emits]
        omega
      · intro j hj
        rw [hpre j (by simp; omega)]
        exact List.getElem?_append_left hj
      · intro idx hmem
        obtain ⟨hge, hcell⟩ := hbound idx hmem
        simp only [List.length_append, List.length_cons, List.length_nil] at hge
        exact ⟨by omega, hcell⟩
      · intro j hj i1 op i2 gf hcell
        by_cases hj' : j < prog.commands.length + 1
        · exfalso
          have hjeq : j = prog.commands.length := by omega
          rw [hjeq] at hcell
          have hcc := hpre prog.commands.length (by simp)
          rw [hcc] at hcell
          simp only [List.getElem?_concat_length] at hcell
          cases hcell
          simp [Cmd.isIf] at hc
        · exact hcover j (by simp; omega) i1 op i2 gf hcell
    | ifThen i1 op i2 =>
      simp only [processItem, Except.bind] at h
      obtain ⟨hlen, hpre, newIdxs, hidx, hbound, hcover⟩ :=
        ih ({ prog with commands := prog.commands ++ [.if_ i1 op i2 0] })
          (ifIdxs ++ [prog.commands.length]) res hwft h
      refine ⟨?_, ?_, prog.commands.length :: newIdxs, ?_, ?_, ?_⟩
      · simp only [hlen]
        simp [cmdCount, SrcItem.emits]
        omega
      · intro j hj
        rw [hpre j (by simp; omega)]
        exact List.getElem?_append_left hj
      · rw [hidx]
        simp
      · intro idx hmem
        rcases List.mem_cons.mp hmem with heq | hmem'
        · subst heq
          refine ⟨le_refl _, i1, op, i2, ?_⟩
          have hcc := hpre prog.commands.length (by simp)
          rw [hcc]
          exact List.getElem?_concat_length _ _
        · obtain ⟨hge, hcell⟩ := hbound idx hmem'
          simp only [List.length_append, List.length_cons, List.length_nil] at hge
          exact ⟨by omega, hcell⟩
      · intro j hj i1' op' i2' gf hcell
        by_cases hj' : j < prog.commands.length + 1
        · have hjeq : j = prog.commands.length := by omega
          exact hjeq ▸ List.mem_cons_self _ _
        · exact List.mem_cons_of_mem _
            (hcover j (by simp; omega) i1' op' i2' gf hcell)
    | label name col =>
      simp only [processItem] at h
      by_cases hped : cfg.pedantic ∧ prog.labels.length ≥ 500
      · rw [if_pos hped] at h
        exact Except.noConfusion h
      · rw [if_neg hped] at h
        by_cases hcol : col > 1
        · rw [if_pos hcol] at h
          exact Except.noConfusion h
        · rw [if_neg hcol] at h
          obtain ⟨hlen, hpre, newIdxs, hidx, hbound, hcover⟩ :=
            ih ({ prog with labels := insertA prog.labels name prog.commands.length })
              ifIdxs res hwft h
          refine ⟨?_, hpre, newIdxs, hidx, hbound, hcover⟩
          simp only [hlen]
          simp [cmdCount, SrcItem.emits]

/-- Effect of one `command_group` iteration of `Program::from_src`:
commands grow by the group's emission count, earlier commands are
untouched, and every `If` the group appended ends up back-patched to
the command count at the close of the group. -/
theorem processGroup_spec (cfg : Config) (prog : Program) (items : List SrcItem)
    (hwf : ∀ it ∈ items, it.wf = true) (prog' : Program)
    (h : processGroup cfg prog items = .ok prog') :
    prog'.commands.length = prog.commands.length + cmdCount items ∧
    (∀ j, j < prog.commands.length → prog'.commands[j]? = prog.commands[j]?) ∧
    (∀ j, prog.commands.length ≤ j →
      ∀ i1 op i2 gf, prog'.commands[j]? = some (.if_ i1 op i2 gf) →
      gf = prog.commands.length + cmdCount items) := by
  unfold processGroup at h
  cases hf : items.foldlM (processItem cfg) (prog, ([] : List Nat)) with
  | error e =>
    rw [hf] at h
    exact Except.noConfusion h
  | ok pr =>
    obtain ⟨p1, ifIdxs⟩ := pr
    rw [hf] at h
    have hprog' : prog' =
        { p1 with commands := patchIfs p1.commands ifIdxs p1.commands.length } := by
      have h2 : Except.ok ({ p1 with
          commands := patchIfs p1.commands ifIdxs p1.commands.length }) =
          Except.ok prog' := h
      exact (Except.ok.inj h2).symm
    obtain ⟨hlen, hpre, newIdxs, hidx, hbound, hcover⟩ :=
      foldItems_spec cfg items prog [] (p1, ifIdxs) hwf hf
    simp only [List.nil_append] at hidx
    have hmemge : ∀ idx ∈ ifIdxs, prog.commands.length ≤ idx := by
      intro idx hm
      exact (hbound idx (hidx ▸ hm)).1
    refine ⟨?_, ?_, ?_⟩
    · rw [hprog']
      simp only [patchIfs_length]
      exact hlen
    · intro j hj
      rw [hprog']
      have hnm : j ∉ ifIdxs := fun hm => by
        have := hmemge j hm
        omega
      simp only [patchIfs_getElem_not_mem _ _ _ _ hnm]
      exact hpre j hj
    · intro j hj i1 op i2 gf hcell
      rw [hprog'] at hcell
      by_cases hm : j ∈ ifIdxs
      · obtain ⟨-, i1', op', i2', hcell0⟩ := hbound j (hidx ▸ hm)
        have hpatched := patchIfs_getElem_mem ifIdxs p1.commands
          p1.commands.length j hm i1' op' i2' 0 hcell0
        rw [hpatched] at hcell
        have hlen' : p1.commands.length =
            prog.commands.length + cmdCount items := hlen
        cases hcell
        omega
      · rw [patchIfs_getElem_not_mem _ _ _ _ hm] at hcell
        exact absurd (hidx ▸ hcover j hj i1 op i2 gf hcell) hm

theorem totalCmds_cons (g : List SrcItem) (gs : List (List SrcItem)) :
    totalCmds (g :: gs) = cmdCount g + totalCmds gs := by
  simp [totalCmds]

/-- Effect of the outer group fold of `Program::from_src`: every `If`
in the final command list lies in the span of commands emitted by some
group and is back-patched to the command count at that group's
close. -/
theorem foldGroups_spec (cfg : Config) (groups : List (List SrcItem)) :
    ∀ (prog prog' : Program),
    (∀ g ∈ groups, ∀ it ∈ g, it.wf = true) →
    groups.foldlM (processGroup cfg) prog = .ok prog' →
    prog'.commands.length = prog.commands.length + totalCmds groups ∧
    (∀ j, j < prog.commands.length → prog'.commands[j]? = prog.commands[j]?) ∧
    (∀ j i1 op i2 gf, prog.commands.length ≤ j →
      prog'.commands[j]? = some (.if_ i1 op i2 gf) →
      ∃ pre g post, groups = pre ++ g :: post ∧
        prog.commands.length + totalCmds pre ≤ j ∧
        j < prog.commands.length + totalCmds pre + cmdCount g ∧
        gf = prog.commands.length + totalCmds pre + cmdCount g) := by
  induction groups with
  | nil =>
    intro prog prog' _ h
    simp only [List.foldlM_nil] at h
    cases h
    refine ⟨by simp [totalCmds], fun j _ => rfl, ?_⟩
    intro j i1 op i2 gf hj hcell
    rw [List.getElem?_eq_none hj] at hcell
    exact Option.noConfusion hcell
  | cons g gs ih =>
    intro prog prog' hwf h
    rw [List.foldlM_cons] at h
    cases hg : processGroup cfg prog g with
    | error e =>
      rw [hg] at h
      exact Except.noConfusion h
    | ok p1 =>
      rw [hg] at h
      have hwfg : ∀ it ∈ g, it.wf = true := hwf g (List.mem_cons_self _ _)
      have hwfgs : ∀ g' ∈ gs, ∀ it ∈ g', it.wf = true :=
        fun g' hg' => hwf g' (List.mem_cons_of_mem _ hg')
      obtain ⟨hlen1, hpre1, hif1⟩ := processGroup_spec cfg prog g hwfg p1 hg
      obtain ⟨hlen2, hpre2, hif2⟩ := ih p1 prog' hwfgs h
      refine ⟨?_, ?_, ?_⟩
      · rw [hlen2, hlen1, totalCmds_cons]
        omega
      · intro j hj
        rw [hpre2 j (by omega), hpre1 j hj]
      · intro j i1 op i2 gf hj hcell
        by_cases hjlt : j < p1.commands.length
        · have hcell1 : p1.commands[j]? = some (.if_ i1 op i2 gf) := by
            rw [← hpre2 j hjlt]
            exact hcell
          have hgf := hif1 j hj i1 op i2 gf hcell1
          refine ⟨[], g, gs, rfl, ?_, ?_, ?_⟩
          · simpa [totalCmds] using hj
          · simp only [totalCmds]
            simp only [List.map_nil, List.sum_nil, Nat.add_zero]
            omega
          · simp only [totalCmds]
            simp only [List.map_nil, List.sum_nil, Nat.add_zero]
            exact hgf
        · obtain ⟨pre', g', post', hgs, hb1, hb2, hb3⟩ :=
            hif2 j i1 op i2 gf (by omega) hcell
          have hpc : prog.commands.length + totalCmds (g :: pre') =
              p1.commands.length + totalCmds pre' := by
            rw [totalCmds_cons]
            omega
          refine ⟨g :: pre', g', post', by simp [hgs], ?_, ?_, ?_⟩
          · omega
          · omega
          · omega

theorem totalCmds_append (a b : List (List SrcItem)) :
    totalCmds (a ++ b) = totalCmds a + totalCmds b := by
  simp [totalCmds]

/-- C3: after a successful parse, every `If` command's `jump_false`
is strictly greater than the `If`'s own index, at most
`commands.len()`, and equal to the number of commands emitted up to the
close of the `command_group` containing the `If` — the fall-through
index immediately after the syntactic end of its then-block (§4.1 of
the spec identifies the group close with the then-block end; the pest
grammar itself is not in the snapshot). -/
theorem c3_if_jump_false (cfg : Config) (groups : List (List SrcItem))
    (prog : Program) (hwf : groupsWf groups)
    (h : fromSrc cfg groups = .ok prog) :
    ∀ j i1 op i2 gf, prog.commands[j]? = some (.if_ i1 op i2 gf) →
      j < gf ∧ gf ≤ prog.commands.length ∧
      ∃ pre g post, groups = pre ++ g :: post ∧
        totalCmds pre ≤ j ∧ j < totalCmds pre + cmdCount g ∧
        gf = totalCmds pre + cmdCount g := by
  unfold fromSrc at h
  cases hf : groups.foldlM (processGroup cfg) ⟨[], []⟩ with
  | error e =>
    rw [hf] at h
    exact Except.noConfusion h
  | ok p0 =>
    rw [hf] at h
    have hprog : prog = { p0 with commands := p0.commands ++ [.end_] } := by
      have h2 : Except.ok ({ p0 with commands := p0.commands ++ [.end_] }) =
          Except.ok prog := h
      exact (Except.ok.inj h2).symm
    obtain ⟨hlen, hpre, hif⟩ := foldGroups_spec cfg groups ⟨[], []⟩ p0 hwf hf
    have hlen0 : p0.commands.length = totalCmds groups := by simpa using hlen
    have hplen : prog.commands.length = p0.commands.length + 1 := by
      rw [hprog]
      simp
    intro j i1 op i2 gf hcell
    rw [hprog] at hcell
    have hcell' : (p0.commands ++ [Cmd.end_])[j]? = some (.if_ i1 op i2 gf) :=
      hcell
    by_cases hjlt : j < p0.commands.length
    · rw [List.getElem?_append_left hjlt] at hcell'
      obtain ⟨pre, g, post, hgs, hb1, hb2, hb3⟩ :=
        hif j i1 op i2 gf (Nat.zero_le j) hcell'
      have hb1' : totalCmds pre ≤ j := by simpa using hb1
      have hb2' : j < totalCmds pre + cmdCount g := by simpa using hb2
      have hb3' : gf = totalCmds pre + cmdCount g := by simpa using hb3
      have htot : totalCmds groups = totalCmds pre + cmdCount g + totalCmds post := by
        rw [hgs, totalCmds_append, totalCmds_cons]
        omega
      exact ⟨by omega, by omega, pre, g, post, hgs, hb1', hb2', hb3'⟩
    · exfalso
      by_cases hjeq : j = p0.commands.length
      · rw [hjeq, List.getElem?_concat_length] at hcell'
        cases hcell'
      · rw [List.getElem?_eq_none (by simp; omega)] at hcell'
        exact Option.noConfusion hcell'

/-- C3 witness: parsing `IF 1 < 2 THEN; BEEP; ENDIF` yields an `If` at
index `0` with `jump_false = 2`, the index just past its then-block. -/
theorem c3_if_jump_false_witness :
    0 < 2 ∧ 2 ≤ 3 ∧
    ∃ pre g post,
      ([[SrcItem.ifThen (.literal 1) .less (.literal 2), .stmt .beep]] :
        List (List SrcItem)) = pre ++ g :: post ∧
      totalCmds pre ≤ 0 ∧ 0 < totalCmds pre + cmdCount g ∧
      2 = totalCmds pre + cmdCount g := by
  have h := c3_if_jump_false ⟨false, .WIN3_0⟩
    [[SrcItem.ifThen (.literal 1) .less (.literal 2), .stmt .beep]]
    ⟨[.if_ (.literal 1) .less (.literal 2) 2, .beep, .end_], []⟩
    (by unfold groupsWf; decide) rfl 0 (.literal 1) .less (.literal 2) 2 rfl
  simpa using h

end Oriel
